import Mathlib

/-!
Shallow embedding of the Query Understanding & Tiered Candidate-Selection
Engine of `src/web/layout6-ai-chat.js` (class `YotoAIChat`): the constraint
extractors (`extractMaxPrice`, `extractAgeRange`, `extractMaxRuntime`,
`extractContentTypes`, `extractKeywords`), the semantic expansion tables
(`expandKeywordsSemantically`, `expandContentTypes`), the relevance scorer
(`scoreAndSortProducts`) and the five-tier pipeline (`preFilterProducts`).

Modelling conventions, chosen to mirror the JavaScript semantics:
* a field that may be `undefined` in a catalog record is an `Option`;
* JavaScript truthiness tests are made explicit (`jsTruthyQ`, `jsTruthyStr`,
  availability checks);
* numbers are rationals (`ℚ`) for prices/runtimes and integers (`ℤ`) for ages;
* a thrown `TypeError` (the unguarded `product.title.toLowerCase()` in
  `scoreAndSortProducts`, line 1036) is modelled as `Except.error ()`;
* the in-place stamping of `tierUsed` / `isExpanded` onto catalog records is
  modelled by threading the catalog list through the tier stages (`TState`):
  the stamped records appear both in the accumulated output and in the
  updated catalog, exactly as the shared object references do in the source.
  No filter or scorer reads these two fields, so the threaded-list model is
  observationally faithful.
-/

/-! ## Characters and strings -/

def isWsChar (c : Char) : Bool :=
  c = ' ' || c = '\t' || c = '\n' || c = '\r'

def isDigitChar (c : Char) : Bool :=
  '0' ≤ c && c ≤ '9'

/-- JavaScript `\w`: `[A-Za-z0-9_]`. -/
def isWordChar (c : Char) : Bool :=
  ('a' ≤ c && c ≤ 'z') || ('A' ≤ c && c ≤ 'Z') || isDigitChar c || c = '_'

def lowerStr (s : String) : String :=
  ⟨s.data.map Char.toLower⟩

/-- `hay.includes(needle)` on character lists. -/
def listIncludes (hay needle : List Char) : Bool :=
  match hay with
  | [] => needle.isEmpty
  | _ :: t => needle.isPrefixOf hay || listIncludes t needle

/-- JavaScript `String.prototype.includes`. -/
def strIncludes (hay needle : String) : Bool :=
  listIncludes hay.data needle.data

def strEndsWith (s suffix : String) : Bool :=
  suffix.data.isSuffixOf s.data

/-- Drop the last `n` characters (JS `slice(0, -n)`). -/
def strDropLast (s : String) (n : Nat) : String :=
  ⟨s.data.take (s.data.length - n)⟩

def strAppend (s t : String) : String :=
  ⟨s.data ++ t.data⟩

/-- JS `keyword.replace(/y$/, 'ies')`. -/
def replaceYIes (s : String) : String :=
  if strEndsWith s "y" then strAppend (strDropLast s 1) "ies" else s

/-! ## Data model

`Product` embeds a catalog record (`CatalogItem`); optional fields model
`undefined`.  `tierUsed` and `isExpanded` start out absent and are stamped
by the tiers. -/

structure Product where
  id : Nat
  title : Option String := none
  author : Option String := none
  blurb : Option String := none
  contentType : Option (List String) := none
  price : Option ℚ := none
  runtime : Option ℚ := none
  ageRange : Option (ℤ × ℤ) := none
  availableForSale : Option Bool := none
  flag : Option String := none
  tierUsed : Option Nat := none
  isExpanded : Option Bool := none
deriving Repr, DecidableEq

/-- The ConstraintSet assembled in `preFilterProducts` (lines 406-412). -/
structure Filters where
  maxPrice : Option ℚ
  ageRange : Option (ℤ × ℤ)
  maxRuntime : Option ℚ
  contentTypes : List String
  keywords : List String
deriving Repr, DecidableEq

/-- JS truthiness of a number that may be `undefined` (`0` is falsy). -/
def jsTruthyQ (q : Option ℚ) : Bool :=
  match q with
  | none => false
  | some v => v ≠ 0

/-- JS truthiness of a string that may be `undefined` (`""` is falsy). -/
def jsTruthyStr (s : Option String) : Bool :=
  match s with
  | none => false
  | some v => !v.isEmpty

/-! ## Morphological keyword matching

`matchesKeyword` in `scoreAndSortProducts` (lines 1008-1029); the same rule
is inlined in the Tier 1 and Tier 2 keyword checks (lines 480-501, 619-638). -/

def morphMatches (text keyword : String) : Bool :=
  -- exact match
  strIncludes text keyword ||
  -- plurals ending in 's': strip 's', and for 'es' strip both
  (strEndsWith keyword "s" &&
    (strIncludes text (strDropLast keyword 1) ||
     (strEndsWith keyword "es" && strIncludes text (strDropLast keyword 2)))) ||
  -- try adding 's' or 'es'
  strIncludes text (strAppend keyword "s") ||
  strIncludes text (strAppend keyword "es") ||
  -- ies/y transformations
  (strEndsWith keyword "ies" && strIncludes text (strAppend (strDropLast keyword 3) "y")) ||
  strIncludes text (replaceYIes keyword)

/-- `${x}` on a possibly-`undefined` string: JS prints the word `undefined`. -/
def tmplStr (s : Option String) : String :=
  match s with
  | none => "undefined"
  | some v => v

/-- `${product.blurb || ''}`. -/
def blurbOrEmpty (s : Option String) : String :=
  match s with
  | none => ""
  | some v => v

/-- `${product.contentType?.join(' ')}`: `undefined` prints as `undefined`. -/
def tmplContentType (ct : Option (List String)) : String :=
  match ct with
  | none => "undefined"
  | some l => String.intercalate " " l

/-- The combined searchable text
`` `${title} ${author} ${blurb || ''} ${contentType?.join(' ')}`.toLowerCase() ``
(lines 479, 618, 722, 797). -/
def searchText (p : Product) : String :=
  lowerStr (strAppend (tmplStr p.title) (strAppend " "
    (strAppend (tmplStr p.author) (strAppend " "
      (strAppend (blurbOrEmpty p.blurb) (strAppend " " (tmplContentType p.contentType)))))))

/-- Keyword check used by Tiers 1 and 2: morphological tolerance. -/
def kwCheckMorph (kws : List String) (p : Product) : Bool :=
  kws.any (fun k => morphMatches (searchText p) k)

/-- Keyword check used by Tiers 3 and 4 (lines 723, 798): plain substring. -/
def kwCheckPlain (kws : List String) (p : Product) : Bool :=
  kws.any (fun k => strIncludes (searchText p) k)


/-! ## A small matcher for the source's regular expressions

The extractors use a fixed set of regexes with a single `(\d+)` capture
group.  `RTok` covers exactly the constructs they use:
literal text, `\s*`, a single character class (for `[\s-]`), `(\d+)`,
an optional character (for `s?`) and the word-boundary `\b` that, in the one
pattern using it, always follows a word character (so it reduces to "next
char is not a word char, or end of input").

As in JS, `\s*` and `\d+` are greedy; in every pattern below the token
following `\s*` cannot start with whitespace and the token following `\d+`
cannot start with a digit, so the greedy (maximal-run) match is complete and
no backtracking over their length is needed. -/

inductive RTok where
  | lit : List Char → RTok
  | ws : RTok
  | cls : (Char → Bool) → RTok
  | digits : RTok
  | optChar : Char → RTok
  | nwb : RTok

/-- Match a token list at the start of `s`; return the digits captured by
the (single) `digits` token.  `s?` is greedy with backtracking, as in JS. -/
def matchToks : List RTok → List Char → Option (List Char)
  | [], _ => some []
  | .lit l :: ts, s =>
      if l.isPrefixOf s then matchToks ts (s.drop l.length) else none
  | .ws :: ts, s => matchToks ts (s.dropWhile isWsChar)
  | .cls f :: ts, s =>
      match s with
      | [] => none
      | c :: s' => if f c then matchToks ts s' else none
  | .digits :: ts, s =>
      let ds := s.takeWhile isDigitChar
      if ds.isEmpty then none
      else
        match matchToks ts (s.dropWhile isDigitChar) with
        | some _ => some ds
        | none => none
  | .optChar c :: ts, s =>
      match s with
      | [] => matchToks ts []
      | c' :: s' =>
          if c' = c then
            match matchToks ts s' with
            | some r => some r
            | none => matchToks ts s
          else matchToks ts s
  | .nwb :: ts, s =>
      match s with
      | [] => matchToks ts []
      | c :: _ => if isWordChar c then none else matchToks ts s

/-- Leftmost match of the pattern anywhere in `s` (JS `String.match`). -/
def regexFind (toks : List RTok) : List Char → Option (List Char)
  | [] => matchToks toks []
  | c :: t =>
      match matchToks toks (c :: t) with
      | some ds => some ds
      | none => regexFind toks t

/-- `parseInt` / `parseFloat` on the captured digit run. -/
def natOfDigits (ds : List Char) : Nat :=
  ds.foldl (fun n c => 10 * n + (c.toNat - '0'.toNat)) 0

/-- Try the patterns in order; return the first capture (the source loops
`for (const pattern of patterns) { const match = query.match(pattern); if (match) return ... }`). -/
def findFirstPattern : List (List RTok) → List Char → Option (List Char)
  | [], _ => none
  | pat :: rest, s =>
      match regexFind pat s with
      | some ds => some ds
      | none => findFirstPattern rest s

/-! ## Constraint extractors -/

/-- The seven price patterns of `extractMaxPrice` (lines 866-874); the first
six require the `£` symbol, the last a `pound`/`pounds` unit word. -/
def pricePatterns : List (List RTok) :=
  [ [.lit "under".data, .ws, .lit "£".data, .digits],
    [.lit "less".data, .ws, .lit "than".data, .ws, .lit "£".data, .digits],
    [.lit "cheaper".data, .ws, .lit "than".data, .ws, .lit "£".data, .digits],
    [.lit "below".data, .ws, .lit "£".data, .digits],
    [.lit "max".data, .ws, .lit "£".data, .digits],
    [.lit "maximum".data, .ws, .lit "£".data, .digits],
    [.digits, .ws, .lit "pound".data, .optChar 's', .nwb] ]

def extractMaxPrice (q : String) : Option ℚ :=
  match findFirstPattern pricePatterns q.data with
  | some ds => some ((natOfDigits ds : ℚ))
  | none => none

def isWsOrHyphen (c : Char) : Bool :=
  isWsChar c || c = '-'

/-- The three age patterns of `extractAgeRange` (lines 886-890). -/
def agePatterns : List (List RTok) :=
  [ [.digits, .cls isWsOrHyphen, .lit "year".data, .cls isWsOrHyphen, .lit "old".data],
    [.lit "age".data, .ws, .digits],
    [.lit "for".data, .ws, .digits] ]

/-- `extractAgeRange` (lines 884-938): a matched age `N` yields the window
`[max(0, N-1), N+1]`; otherwise the named age bands are tried. -/
def extractAgeRange (q : String) : Option (ℤ × ℤ) :=
  match findFirstPattern agePatterns q.data with
  | some ds =>
      let age : ℤ := (natOfDigits ds : ℤ)
      some (max 0 (age - 1), age + 1)
  | none =>
      if strIncludes q "toddler" then some (2, 4)
      else if strIncludes q "preschool" then some (3, 5)
      else if strIncludes q "baby" || strIncludes q "babies" then some (0, 2)
      else none

/-- The four minute patterns of `extractMaxRuntime` (lines 942-947). -/
def runtimeMinPatterns : List (List RTok) :=
  [ [.lit "under".data, .ws, .digits, .ws, .lit "min".data],
    [.lit "less".data, .ws, .lit "than".data, .ws, .digits, .ws, .lit "min".data],
    [.lit "shorter".data, .ws, .lit "than".data, .ws, .digits, .ws, .lit "min".data],
    [.digits, .ws, .lit "min".data, .ws, .lit "or".data, .ws, .lit "less".data] ]

def runtimeHourPattern : List RTok :=
  [.lit "under".data, .ws, .digits, .ws, .lit "hour".data]

/-- `extractMaxRuntime` (lines 940-963), in seconds. -/
def extractMaxRuntime (q : String) : Option ℚ :=
  match findFirstPattern runtimeMinPatterns q.data with
  | some ds => some ((natOfDigits ds * 60 : ℕ) : ℚ)
  | none =>
      match regexFind runtimeHourPattern q.data with
      | some ds => some ((natOfDigits ds * 3600 : ℕ) : ℚ)
      | none =>
          if strIncludes q "quick" || strIncludes q "short" then some ((1800 : ℕ) : ℚ)
          else none

/-- The literal `typeMap` of `extractContentTypes` (lines 969-982), in
object-entry order. -/
def typeMapEntries : List (String × String) :=
  [ ("story", "Stories"), ("stories", "Stories"),
    ("music", "Music"), ("song", "Music"), ("songs", "Music"),
    ("education", "Learning & Education"), ("educational", "Learning & Education"),
    ("learning", "Learning & Education"),
    ("adventure", "Action & Adventure"),
    ("bedtime", "Stories"), ("sleep", "Stories"), ("lullaby", "Music") ]

/-- `extractContentTypes` (lines 965-991). -/
def extractContentTypes (q : String) : List String :=
  typeMapEntries.foldl
    (fun ts kt =>
      if strIncludes q kt.1 && !ts.contains kt.2 then ts ++ [kt.2] else ts)
    []

/-- The stop-word list of `extractKeywords` (line 995). -/
def stopWords : List String :=
  ["the", "a", "an", "and", "or", "but", "in", "on", "at", "to", "for", "of",
   "with", "by", "from", "as", "is", "was", "are", "be", "been", "being",
   "have", "has", "had", "do", "does", "did", "will", "would", "could",
   "should", "may", "might", "must", "can", "find", "show", "get", "give",
   "me", "my", "i", "you", "your", "under", "over", "less", "more", "than",
   "about"]

/-- Split into maximal runs of non-whitespace (JS `split(/\s+/)`; the empty
leading token JS can produce is removed by the length filter anyway). -/
def splitWsGo : List Char → List Char → List (List Char)
  | [], acc => if acc.isEmpty then [] else [acc.reverse]
  | c :: rest, acc =>
      if isWsChar c then
        if acc.isEmpty then splitWsGo rest []
        else acc.reverse :: splitWsGo rest []
      else splitWsGo rest (c :: acc)

def splitWs (cs : List Char) : List (List Char) :=
  splitWsGo cs []

/-- `[...new Set(xs)]`: de-duplicate keeping first occurrences. -/
def dedupFirst : List String → List String
  | [] => []
  | x :: xs => x :: (dedupFirst xs).filter (fun y => y ≠ x)

/-- `extractKeywords` (lines 993-1004): lower-case, replace `[^\w\s]` by a
space, split on whitespace, keep words longer than 2 that are not stop
words, de-duplicate. -/
def extractKeywords (q : String) : List String :=
  let cleaned := (lowerStr q).data.map (fun c => if isWordChar c || isWsChar c then c else ' ')
  let words := (splitWs cleaned).map (fun l => (⟨l⟩ : String))
  dedupFirst (words.filter (fun w => w.length > 2 && !stopWords.contains w))

/-- The ConstraintSet assembled from the (lower-cased) latest user query
(lines 406-412). -/
def extractFilters (ql : String) : Filters :=
  { maxPrice := extractMaxPrice ql
    ageRange := extractAgeRange ql
    maxRuntime := extractMaxRuntime ql
    contentTypes := extractContentTypes ql
    keywords := extractKeywords ql }


/-! ## Semantic expansion vocabulary (`expandKeywordsSemantically`, lines 272-371) -/

/-- `level1Map`: direct synonyms, in object-entry order. -/
def level1Map : List (String × List String) :=
  [ ("dinosaur", ["prehistoric", "reptile", "jurassic", "fossil", "tyrannosaurus", "t-rex", "triceratops"]),
    ("space", ["astronomy", "planet", "rocket", "astronaut", "galaxy", "star", "moon", "solar"]),
    ("princess", ["fairy tale", "royal", "castle", "crown", "queen", "prince"]),
    ("pirate", ["treasure", "ship", "sea", "adventure", "ocean", "captain", "sailor"]),
    ("animal", ["creature", "wildlife", "nature", "jungle", "safari"]),
    ("music", ["song", "melody", "rhythm", "instrument", "singing"]),
    ("story", ["tale", "narrative", "adventure", "journey"]),
    ("science", ["experiment", "discovery", "learning", "stem"]),
    ("magic", ["wizard", "spell", "fantasy", "enchanted", "mystical"]),
    ("witch", ["magic", "spell", "broom", "cauldron", "potion", "halloween"]),
    ("dragon", ["fantasy", "mythical", "fire", "knight", "castle"]),
    ("unicorn", ["fantasy", "magical", "rainbow", "fairy tale"]),
    ("monster", ["creature", "scary", "beast", "halloween"]),
    ("superhero", ["hero", "powers", "cape", "adventure", "brave"]),
    ("fairy", ["fantasy", "magical", "wings", "fairy tale"]),
    ("bedtime", ["sleep", "night", "calm", "lullaby", "soothing"]),
    ("broom", ["witch", "magic", "halloween", "spell"]),
    ("broomstick", ["witch", "magic", "halloween", "spell"]),
    ("wand", ["magic", "wizard", "witch", "spell", "fantasy"]),
    ("spell", ["magic", "wizard", "witch", "fantasy"]),
    ("potion", ["magic", "wizard", "witch", "spell"]),
    ("cauldron", ["witch", "magic", "potion", "halloween"]),
    ("trombone", ["music", "instrument", "brass", "jazz", "orchestra"]),
    ("trumpet", ["music", "instrument", "brass", "jazz", "orchestra"]),
    ("violin", ["music", "instrument", "strings", "classical", "orchestra"]),
    ("piano", ["music", "instrument", "classical", "keys"]),
    ("guitar", ["music", "instrument", "strings", "rock"]),
    ("drum", ["music", "instrument", "percussion", "rhythm"]),
    ("flute", ["music", "instrument", "wind", "classical"]),
    ("saxophone", ["music", "instrument", "jazz", "wind"]),
    ("banjo", ["music", "instrument", "folk", "strings"]),
    ("bus", ["vehicle", "transport", "travel", "wheel", "music", "song"]),
    ("busses", ["vehicle", "transport", "travel", "wheel", "music", "song"]),
    ("buses", ["vehicle", "transport", "travel", "wheel", "music", "song"]),
    ("car", ["vehicle", "transport", "travel", "wheel"]),
    ("train", ["vehicle", "transport", "travel", "railway"]),
    ("truck", ["vehicle", "transport", "travel", "wheel"]) ]

/-- `level2Map`: broader categories. -/
def level2Map : List (String × List String) :=
  [ ("badger", ["woodland", "forest", "animal", "creature", "nature"]),
    ("fox", ["woodland", "forest", "animal", "creature", "nature"]),
    ("hedgehog", ["woodland", "forest", "animal", "creature", "nature"]),
    ("rabbit", ["woodland", "forest", "animal", "creature", "nature"]),
    ("bear", ["woodland", "forest", "animal", "creature", "nature", "wild"]),
    ("lion", ["safari", "jungle", "animal", "wild", "africa"]),
    ("elephant", ["safari", "jungle", "animal", "wild", "africa"]),
    ("giraffe", ["safari", "jungle", "animal", "wild", "africa"]),
    ("penguin", ["arctic", "ice", "animal", "bird", "cold"]),
    ("shark", ["ocean", "sea", "fish", "underwater", "marine"]),
    ("dolphin", ["ocean", "sea", "marine", "underwater", "aquatic"]),
    ("dinosaur", ["animal", "creature", "prehistoric", "adventure"]),
    ("space", ["science", "discovery", "adventure", "learning"]),
    ("princess", ["fantasy", "adventure", "story", "fairy tale"]),
    ("pirate", ["adventure", "treasure", "journey", "story"]),
    ("witch", ["fantasy", "magic", "story", "adventure"]),
    ("dragon", ["fantasy", "adventure", "story", "mythical"]),
    ("superhero", ["adventure", "action", "brave", "hero"]) ]

/-- `level3Map`: very broad categories. -/
def level3Map : List (String × List String) :=
  [ ("animal", ["nature", "wildlife", "adventure", "discovery"]),
    ("fantasy", ["story", "adventure", "imagination"]),
    ("space", ["discovery", "adventure", "learning"]),
    ("adventure", ["story", "journey", "exploration"]),
    ("magic", ["fantasy", "story", "imagination"]),
    ("science", ["learning", "discovery", "education"]) ]

/-- `expandKeywordsSemantically(keywords, level)` (lines 272-371): a map
entry fires when `keyword.includes(baseWord) || baseWord.includes(keyword)`;
the expansions of all maps up to `level` are appended, then de-duplicated. -/
def expandKeywordsSemantically (keywords : List String) (level : Nat) : List String :=
  let mapsToUse :=
    (if level ≥ 1 then [level1Map] else []) ++
    (if level ≥ 2 then [level2Map] else []) ++
    (if level ≥ 3 then [level3Map] else [])
  let expanded := keywords ++
    keywords.flatMap (fun keyword =>
      mapsToUse.flatMap (fun m =>
        m.flatMap (fun entry =>
          if strIncludes keyword entry.1 || strIncludes entry.1 keyword then entry.2
          else [])))
  dedupFirst expanded

/-- `expandContentTypes` (lines 373-389): an exact-key lookup table. -/
def typeExpansions : List (String × List String) :=
  [ ("Stories", ["Adventures", "Tales", "Narratives", "Learning & Education"]),
    ("Music", ["Songs", "Lullabies", "Rhymes"]),
    ("Learning & Education", ["Stories", "Science", "Discovery"]) ]

def expandContentTypes (contentTypes : List String) : List String :=
  let expanded := contentTypes ++
    contentTypes.flatMap (fun ty =>
      match typeExpansions.find? (fun entry => entry.1 = ty) with
      | some entry => entry.2
      | none => [])
  dedupFirst expanded

/-- The expanded filter set used by Tier 2 (lines 562-566). -/
def expandedFilters (f : Filters) : Filters :=
  { f with
      keywords := if f.keywords.isEmpty then f.keywords
                  else expandKeywordsSemantically f.keywords 1
      contentTypes := if f.contentTypes.isEmpty then f.contentTypes
                      else expandContentTypes f.contentTypes }

/-- The filter set used by Tier 3 (lines 678-682): Level 2 expansion. -/
def tier3Filters (f : Filters) : Filters :=
  { f with
      keywords := expandKeywordsSemantically f.keywords 2
      contentTypes := expandContentTypes f.contentTypes }

/-- The filter set used by Tier 4 (lines 753-757): Level 3 expansion. -/
def tier4Filters (f : Filters) : Filters :=
  { f with
      keywords := expandKeywordsSemantically f.keywords 3
      contentTypes := expandContentTypes f.contentTypes }


/-! ## Relevance scorer (`scoreAndSortProducts`, lines 1006-1064)

When `filters.keywords.length > 0`, the source reads
`product.title.toLowerCase()` without a guard (line 1036); on a record with
no `title` this throws `TypeError`.  The thrown exception is modelled as
`Except.error ()`.  All other field accesses in the scorer are guarded. -/

def countMorphMatches (kws : List String) (text : String) : Nat :=
  (kws.filter (fun k => morphMatches text k)).length

/-- The score of one product, or the thrown `TypeError`. -/
def scoreOne (f : Filters) (p : Product) : Except Unit ℤ :=
  match (if f.keywords.isEmpty then some 0
         else match p.title with
              | none => none   -- product.title.toLowerCase() throws
              | some t => some ((3 * countMorphMatches f.keywords (lowerStr t) : ℕ) : ℤ)) with
  | none => .error ()
  | some titleScore =>
      let blurbScore : ℤ :=
        if jsTruthyStr p.blurb && !f.keywords.isEmpty then
          match p.blurb with
          | some b => ((countMorphMatches f.keywords (lowerStr b) : ℕ) : ℤ)
          | none => 0
        else 0
      let flagScore : ℤ := if p.flag = some "New to Yoto" then 2 else 0
      let ageScore : ℤ :=
        match f.ageRange, p.ageRange with
        | some tr, some pr => if tr.1 ≤ pr.1 && pr.2 ≤ tr.2 then 5 else 0
        | _, _ => 0
      .ok (titleScore + blurbScore + flagScore + ageScore)

def scorePair (f : Filters) (p : Product) : Except Unit (Product × ℤ) :=
  match scoreOne f p with
  | .error e => .error e
  | .ok s => .ok (p, s)

/-- `List.mapM` specialised to `Except`, with explicit equations for proofs. -/
def mapMEx (g : α → Except Unit β) : List α → Except Unit (List β)
  | [] => .ok []
  | a :: t =>
      match g a with
      | .error e => .error e
      | .ok b =>
          match mapMEx g t with
          | .error e => .error e
          | .ok bs => .ok (b :: bs)

/-- Descending stable sort by score (`sort((a, b) => b.score - a.score)`). -/
def scoreRel (a b : Product × ℤ) : Prop := b.2 ≤ a.2

instance : DecidableRel scoreRel := fun a b => inferInstanceAs (Decidable (b.2 ≤ a.2))

/-- `scoreAndSortProducts` (lines 1006-1064). -/
def scoreAndSort (ps : List Product) (f : Filters) : Except Unit (List Product) :=
  match mapMEx (scorePair f) ps with
  | .error e => .error e
  | .ok scored => .ok ((List.insertionSort scoreRel scored).map Prod.fst)

/-! ## Tier pass predicates (`preFilterProducts`, lines 391-861) -/

/-- `hasFilters` (lines 423-424): JS truthiness of each field. -/
def hasFilters (f : Filters) : Bool :=
  jsTruthyQ f.maxPrice || f.ageRange.isSome || jsTruthyQ f.maxRuntime ||
  !f.contentTypes.isEmpty || !f.keywords.isEmpty

/-- Tier 1 price exclusion (lines 435-439): `parseFloat(product.price)` of a
missing price is `NaN` and every comparison with `NaN` is false. -/
def priceOverBare (f : Filters) (p : Product) : Bool :=
  match p.price, f.maxPrice with
  | some pr, some m => pr > m
  | _, _ => false

/-- Tier 2-5 price exclusion (lines 587, 693, 768, 832):
`filters.maxPrice && product.price && parseFloat(product.price) > filters.maxPrice`. -/
def priceOverGuarded (f : Filters) (p : Product) : Bool :=
  jsTruthyQ f.maxPrice && jsTruthyQ p.price && priceOverBare f p

/-- Tier 1 runtime exclusion (lines 441-446). -/
def runtimeOver (f : Filters) (p : Product) : Bool :=
  match p.runtime, f.maxRuntime with
  | some r, some m => r > m
  | _, _ => false

/-- Age overlap with the requested range; a product without age data fails
(lines 452-462). -/
def ageCheck (r : ℤ × ℤ) (p : Product) : Bool :=
  match p.ageRange with
  | some pr => pr.1 ≤ r.2 && pr.2 ≥ r.1
  | none => false

/-- Content-type check: some requested type is a (case-insensitive)
substring of some product category (lines 464-475). -/
def ctCheck (cts : List String) (p : Product) : Bool :=
  match p.contentType with
  | some pcts => cts.any (fun ty => pcts.any (fun ct => strIncludes (lowerStr ct) (lowerStr ty)))
  | none => false

/-- The `filterChecks` accumulation and final
`filterChecks.length === 0 || filterChecks.every(check => check === true)`
(lines 449-507 and its copies in Tiers 2-4).  The keyword check is the only
part that differs per tier and is passed in. -/
def softChecksPass (ar : Option (ℤ × ℤ)) (cts kws : List String)
    (kwCheck : List String → Product → Bool) (p : Product) : Bool :=
  let checks : List Bool :=
    (match ar with
     | some r => [ageCheck r p]
     | none => []) ++
    (if cts.isEmpty then [] else [ctCheck cts p]) ++
    (if kws.isEmpty then [] else [kwCheck kws p])
  checks.isEmpty || checks.all (fun c => c = true)

/-- Tier 1 availability check (line 429): only an explicit `false` excludes. -/
def tier1AvailExcluded (p : Product) : Bool :=
  p.availableForSale = some false

/-- Tiers 2-5 availability check (`!product.availableForSale`): any falsy
value (`false` or `undefined`) excludes. -/
def availTruthy (p : Product) : Bool :=
  p.availableForSale = some true

/-- The Tier 1 filter predicate (lines 427-508). -/
def tier1Pass (f : Filters) (hasF : Bool) (p : Product) : Bool :=
  if tier1AvailExcluded p then false
  else if !hasF then true
  else if jsTruthyQ f.maxPrice && priceOverBare f p then false
  else if jsTruthyQ f.maxRuntime && runtimeOver f p then false
  else softChecksPass f.ageRange f.contentTypes f.keywords kwCheckMorph p

/-- The Tier 2 filter predicate (lines 581-644): original age range, expanded
content types and keywords, morphological keyword rule. -/
def tier2Pass (f ef : Filters) (ids : List Nat) (p : Product) : Bool :=
  if ids.contains p.id then false
  else if !availTruthy p then false
  else if priceOverGuarded f p then false
  else softChecksPass f.ageRange ef.contentTypes ef.keywords kwCheckMorph p

/-- The Tier 3 filter predicate (lines 690-728): plain substring keyword
matching on the Level-2-expanded keywords. -/
def tier3Pass (f ef : Filters) (ids : List Nat) (p : Product) : Bool :=
  if ids.contains p.id then false
  else if !availTruthy p then false
  else if priceOverGuarded f p then false
  else softChecksPass f.ageRange ef.contentTypes ef.keywords kwCheckPlain p

/-- The Tier 4 filter predicate (lines 765-803): same shape as Tier 3 with
the Level-3-expanded keywords. -/
def tier4Pass (f ef : Filters) (ids : List Nat) (p : Product) : Bool :=
  if ids.contains p.id then false
  else if !availTruthy p then false
  else if priceOverGuarded f p then false
  else softChecksPass f.ageRange ef.contentTypes ef.keywords kwCheckPlain p

/-- The Tier 5 filter predicate (lines 828-834): availability and price only. -/
def tier5Pass (f : Filters) (ids : List Nat) (p : Product) : Bool :=
  if ids.contains p.id then false
  else if !availTruthy p then false
  else if priceOverGuarded f p then false
  else true

/-- Tier 5 metadata-completeness score (lines 838-843). -/
def metaScore (p : Product) : ℤ :=
  (if jsTruthyStr p.author then 1 else 0) +
  (if jsTruthyStr p.blurb then 1 else 0) +
  (if p.ageRange.isSome then 1 else 0)

def metaRel (a b : Product) : Prop := metaScore b ≤ metaScore a

instance : DecidableRel metaRel := fun a b => inferInstanceAs (Decidable (metaScore b ≤ metaScore a))

/-! ## The tier pipeline

The source stamps `tierUsed` / `isExpanded` directly onto the catalog
records it selected (lines 514, 647-650, 730, 805, 845); since the filtered
arrays hold references into `this.products`, the same mutated objects appear
in the accumulated result and in the catalog.  `TState` threads both: `acc`
is the accumulated result list, `cat` the catalog record list. -/

structure TState where
  acc : List Product
  cat : List Product
deriving Repr, DecidableEq

/-- `p.tierUsed = 1` (line 514). -/
def tag1 (p : Product) : Product := { p with tierUsed := some 1 }

/-- `p.isExpanded = true; p.tierUsed = 2` (lines 647-650). -/
def tag2 (p : Product) : Product := { p with isExpanded := some true, tierUsed := some 2 }

/-- `p.tierUsed = n` (lines 730, 805, 845). -/
def tagT (n : Nat) (p : Product) : Product := { p with tierUsed := some n }

/-- In-place stamping of every record selected by `sel`, modelled as a map
over the record list. -/
def mutTag (tag : Product → Product) (sel : Product → Bool) (cat : List Product) : List Product :=
  cat.map (fun p => if sel p then tag p else p)

/-- Tier 1 (lines 427-514): filter, score-and-sort, stamp `tierUsed = 1`. -/
def stage1 (f : Filters) (cat : List Product) : Except Unit TState :=
  let sel := tier1Pass f (hasFilters f)
  match scoreAndSort (cat.filter sel) f with
  | .error e => .error e
  | .ok sorted => .ok ⟨sorted.map tag1, mutTag tag1 sel cat⟩

/-- Tier 2 (lines 553-664): runs when fewer than 3 results and the query had
keywords or content types; re-filters the not-yet-selected records with the
expanded filters, stamps, scores, and appends. -/
def stage2 (f : Filters) (st : TState) : Except Unit TState :=
  if st.acc.length < 3 && (!f.keywords.isEmpty || !f.contentTypes.isEmpty) then
    let ef := expandedFilters f
    let ids := st.acc.map (fun p => p.id)
    let sel := tier2Pass f ef ids
    let results := (st.cat.filter sel).map tag2
    match scoreAndSort results ef with
    | .error e => .error e
    | .ok scored => .ok ⟨st.acc ++ scored, mutTag tag2 sel st.cat⟩
  else .ok st

/-- Tier 3 (lines 668-739). -/
def stage3 (f : Filters) (st : TState) : Except Unit TState :=
  if st.acc.length < 3 && (!f.keywords.isEmpty || !f.contentTypes.isEmpty) then
    let ef := tier3Filters f
    let ids := st.acc.map (fun p => p.id)
    let sel := tier3Pass f ef ids
    let results := (st.cat.filter sel).map (tagT 3)
    match scoreAndSort results ef with
    | .error e => .error e
    | .ok scored => .ok ⟨st.acc ++ scored, mutTag (tagT 3) sel st.cat⟩
  else .ok st

/-- Tier 4 (lines 743-814). -/
def stage4 (f : Filters) (st : TState) : Except Unit TState :=
  if st.acc.length < 3 && (!f.keywords.isEmpty || !f.contentTypes.isEmpty) then
    let ef := tier4Filters f
    let ids := st.acc.map (fun p => p.id)
    let sel := tier4Pass f ef ids
    let results := (st.cat.filter sel).map (tagT 4)
    match scoreAndSort results ef with
    | .error e => .error e
    | .ok scored => .ok ⟨st.acc ++ scored, mutTag (tagT 4) sel st.cat⟩
  else .ok st

/-- Tier 5 (lines 818-857): no scoring call, so it cannot throw; sorts the
remaining available, price-passing records by metadata completeness, stamps
`tierUsed = 5` on all of them (before the `slice(0, 10)`), and appends the
top 10. -/
def stage5 (f : Filters) (st : TState) : TState :=
  if st.acc.length < 3 then
    let ids := st.acc.map (fun p => p.id)
    let sel := tier5Pass f ids
    let sorted := List.insertionSort metaRel (st.cat.filter sel)
    ⟨st.acc ++ ((sorted.map (tagT 5)).take 10), mutTag (tagT 5) sel st.cat⟩
  else st

/-- `preFilterProducts` after constraint extraction: the five tiers and the
final `filtered.slice(0, 100)` (line 860).  Returns the final result list
together with the catalog records as they stand after the run, or
`Except.error ()` when a scoring pass threw. -/
def preFilterWith (f : Filters) (cat : List Product) : Except Unit TState :=
  match stage1 f cat with
  | .error e => .error e
  | .ok s1 =>
      match stage2 f s1 with
      | .error e => .error e
      | .ok s2 =>
          match stage3 f s2 with
          | .error e => .error e
          | .ok s3 =>
              match stage4 f s3 with
              | .error e => .error e
              | .ok s4 =>
                  let s5 := stage5 f s4
                  .ok ⟨s5.acc.take 100, s5.cat⟩

/-- A conversation message (lines 393-394). -/
structure Msg where
  role : String
  content : String
deriving Repr, DecidableEq

/-- Only the most recent user message is used for filtering (lines 393-396). -/
def latestUserMessage (history : List Msg) : String :=
  match (history.filter (fun m => m.role = "user")).getLast? with
  | some m => m.content
  | none => ""

/-- `preFilterProducts(conversationHistory)` (lines 391-861). -/
def preFilterProducts (cat : List Product) (history : List Msg) : Except Unit TState :=
  preFilterWith (extractFilters (lowerStr (latestUserMessage history))) cat

/-- A record with the per-tier tags cleared: every other field is the
original catalog data. -/
def clearTags (p : Product) : Product :=
  { p with tierUsed := none, isExpanded := none }

/-! ## Concrete catalog records and constraint sets used by the claim
witnesses and counterexamples -/

def itemOcean : Product :=
  { id := 1, blurb := some "ocean adventure", availableForSale := some true }

def itemKite : Product :=
  { id := 13, title := some "kite", price := some 5, availableForSale := some true }

def itemLong : Product :=
  { id := 3, title := some "wolf", runtime := some 9999, availableForSale := some true }

def itemFox : Product :=
  { id := 9, title := some "fox", availableForSale := some true }

def itemDupA : Product :=
  { id := 7, title := some "alpha", availableForSale := some true }

def itemDupB : Product :=
  { id := 7, title := some "beta", availableForSale := some true }

def itemStories : Product :=
  { id := 4, title := some "stories", availableForSale := some true }

def itemNoFlag : Product :=
  { id := 5, title := some "zebra" }

def itemPuzzle : Product :=
  { id := 6, blurb := some "puzzle fun", availableForSale := some true }

def itemLantern : Product :=
  { id := 11, title := some "lantern", availableForSale := some true }

def itemBoat : Product :=
  { id := 12, title := some "boat", price := some 5, availableForSale := some true }

def itemPond : Product :=
  { id := 14, title := some "pond", runtime := some 300, availableForSale := some true }

def itemPearl : Product :=
  { id := 15, title := some "pearl", availableForSale := some true }

def itemRope : Product :=
  { id := 16, title := some "rope", availableForSale := some true }

def itemLamp : Product :=
  { id := 10, title := some "lamp", ageRange := some (2, 5), availableForSale := some true }

def itemCatTales : Product :=
  { id := 17, title := some "cat tales", availableForSale := some true }

def fAge : Filters := ⟨none, some (1, 3), none, [], []⟩

def fPrice10 : Filters := ⟨some 10, none, none, [], []⟩

def fRt600 : Filters := ⟨none, none, some 600, [], []⟩

def fKwCat : Filters := ⟨none, none, none, [], ["cat"]⟩


/-! ## Sanity checks of the embedding on concrete inputs -/

example : morphMatches "the stories box" "story" = true := by decide
example : strIncludes "the stories box" "story" = false := by decide

example : extractMaxPrice "toys under £10 please" = some 10 := by decide
example : extractMaxPrice "under 2 year olds" = none := by decide
example : extractMaxPrice "about 15 pounds" = some 15 := by decide
example : extractAgeRange "for my 4-year-old" = some (3, 5) := by decide
example : extractMaxRuntime "under 15 min" = some 900 := by decide
example : extractKeywords "songs about buses for under 2 year olds" =
    ["songs", "buses", "year", "olds"] := by decide
example : extractContentTypes "a bedtime story song" = ["Stories", "Music"] := by decide

example : expandKeywordsSemantically ["witch"] 2 =
    ["witch", "magic", "spell", "broom", "cauldron", "potion", "halloween",
     "fantasy", "story", "adventure"] := by decide

/-! ## Basic lemmas about the scorer -/

theorem scorePair_fst (f : Filters) (p : Product) (q : Product × ℤ)
    (h : scorePair f p = .ok q) : q.1 = p := by
  unfold scorePair at h
  cases hs : scoreOne f p <;> rw [hs] at h <;> cases h
  rfl

theorem mapMEx_scorePair_fst (f : Filters) :
    ∀ (ps : List Product) (l : List (Product × ℤ)),
      mapMEx (scorePair f) ps = .ok l → l.map Prod.fst = ps := by
  intro ps
  induction ps with
  | nil =>
      intro l h
      simp only [mapMEx] at h
      cases h
      rfl
  | cons a t ih =>
      intro l h
      simp only [mapMEx] at h
      cases hg : scorePair f a <;> rw [hg] at h
      · cases h
      cases hm : mapMEx (scorePair f) t <;> rw [hm] at h <;> cases h
      simp only [List.map_cons]
      rw [scorePair_fst f a _ hg, ih _ hm]

/-- A successful scoring pass permutes its input (sorting only). -/
theorem scoreAndSort_perm (ps : List Product) (f : Filters) (out : List Product)
    (h : scoreAndSort ps f = .ok out) : out.Perm ps := by
  unfold scoreAndSort at h
  cases hm : mapMEx (scorePair f) ps with
  | error e => rw [hm] at h; cases h
  | ok scored =>
      rw [hm] at h
      cases h
      have h1 := (List.perm_insertionSort scoreRel scored).map Prod.fst
      rw [mapMEx_scorePair_fst f ps scored hm] at h1
      exact h1

/-! ## Stage membership lemmas: each element of a stage's output is either
carried over or comes from the catalog via that tier's pass predicate. -/

theorem stage1_mem (f : Filters) (cat : List Product) (st : TState)
    (h : stage1 f cat = .ok st) :
    ∀ q ∈ st.acc, ∃ p, p ∈ cat ∧ tier1Pass f (hasFilters f) p = true ∧ q = tag1 p := by
  simp only [stage1] at h
  cases hs : scoreAndSort (cat.filter (tier1Pass f (hasFilters f))) f with
  | error e => rw [hs] at h; cases h
  | ok sorted =>
      rw [hs] at h
      cases h
      intro q hq
      simp only [List.mem_map] at hq
      obtain ⟨r, hr, rfl⟩ := hq
      have hm := (scoreAndSort_perm _ _ _ hs).mem_iff.mp hr
      rw [List.mem_filter] at hm
      exact ⟨r, hm.1, hm.2, rfl⟩

theorem stage2_mem (f : Filters) (st st' : TState)
    (h : stage2 f st = .ok st') :
    ∀ q ∈ st'.acc, q ∈ st.acc ∨
      ∃ p, p ∈ st.cat ∧
        tier2Pass f (expandedFilters f) (st.acc.map (fun p => p.id)) p = true ∧
        q = tag2 p := by
  simp only [stage2] at h
  by_cases hc : (st.acc.length < 3 && (!f.keywords.isEmpty || !f.contentTypes.isEmpty)) = true
  · rw [if_pos hc] at h
    cases hs : scoreAndSort ((st.cat.filter
        (tier2Pass f (expandedFilters f) (st.acc.map (fun p => p.id)))).map tag2)
        (expandedFilters f) with
    | error e => rw [hs] at h; cases h
    | ok scored =>
        rw [hs] at h
        cases h
        intro q hq
        rw [List.mem_append] at hq
        cases hq with
        | inl hq => exact Or.inl hq
        | inr hq =>
            right
            have hm := (scoreAndSort_perm _ _ _ hs).mem_iff.mp hq
            simp only [List.mem_map] at hm
            obtain ⟨r, hr, rfl⟩ := hm
            rw [List.mem_filter] at hr
            exact ⟨r, hr.1, hr.2, rfl⟩
  · rw [if_neg hc] at h
    cases h
    intro q hq
    exact Or.inl hq

theorem stage3_mem (f : Filters) (st st' : TState)
    (h : stage3 f st = .ok st') :
    ∀ q ∈ st'.acc, q ∈ st.acc ∨
      ∃ p, p ∈ st.cat ∧
        tier3Pass f (tier3Filters f) (st.acc.map (fun p => p.id)) p = true ∧
        q = tagT 3 p := by
  simp only [stage3] at h
  by_cases hc : (st.acc.length < 3 && (!f.keywords.isEmpty || !f.contentTypes.isEmpty)) = true
  · rw [if_pos hc] at h
    cases hs : scoreAndSort ((st.cat.filter
        (tier3Pass f (tier3Filters f) (st.acc.map (fun p => p.id)))).map (tagT 3))
        (tier3Filters f) with
    | error e => rw [hs] at h; cases h
    | ok scored =>
        rw [hs] at h
        cases h
        intro q hq
        rw [List.mem_append] at hq
        cases hq with
        | inl hq => exact Or.inl hq
        | inr hq =>
            right
            have hm := (scoreAndSort_perm _ _ _ hs).mem_iff.mp hq
            simp only [List.mem_map] at hm
            obtain ⟨r, hr, rfl⟩ := hm
            rw [List.mem_filter] at hr
            exact ⟨r, hr.1, hr.2, rfl⟩
  · rw [if_neg hc] at h
    cases h
    intro q hq
    exact Or.inl hq

theorem stage4_mem (f : Filters) (st st' : TState)
    (h : stage4 f st = .ok st') :
    ∀ q ∈ st'.acc, q ∈ st.acc ∨
      ∃ p, p ∈ st.cat ∧
        tier4Pass f (tier4Filters f) (st.acc.map (fun p => p.id)) p = true ∧
        q = tagT 4 p := by
  simp only [stage4] at h
  by_cases hc : (st.acc.length < 3 && (!f.keywords.isEmpty || !f.contentTypes.isEmpty)) = true
  · rw [if_pos hc] at h
    cases hs : scoreAndSort ((st.cat.filter
        (tier4Pass f (tier4Filters f) (st.acc.map (fun p => p.id)))).map (tagT 4))
        (tier4Filters f) with
    | error e => rw [hs] at h; cases h
    | ok scored =>
        rw [hs] at h
        cases h
        intro q hq
        rw [List.mem_append] at hq
        cases hq with
        | inl hq => exact Or.inl hq
        | inr hq =>
            right
            have hm := (scoreAndSort_perm _ _ _ hs).mem_iff.mp hq
            simp only [List.mem_map] at hm
            obtain ⟨r, hr, rfl⟩ := hm
            rw [List.mem_filter] at hr
            exact ⟨r, hr.1, hr.2, rfl⟩
  · rw [if_neg hc] at h
    cases h
    intro q hq
    exact Or.inl hq

theorem stage5_mem (f : Filters) (st : TState) :
    ∀ q ∈ (stage5 f st).acc, q ∈ st.acc ∨
      ∃ p, p ∈ st.cat ∧
        tier5Pass f (st.acc.map (fun p => p.id)) p = true ∧
        q = tagT 5 p := by
  simp only [stage5]
  by_cases hc : st.acc.length < 3
  · rw [if_pos hc]
    intro q hq
    rw [List.mem_append] at hq
    cases hq with
    | inl hq => exact Or.inl hq
    | inr hq =>
        right
        have hq2 := List.take_subset 10 _ hq
        have := (List.perm_insertionSort metaRel
          (st.cat.filter (tier5Pass f (st.acc.map (fun p => p.id))))).map (tagT 5)
        have hq3 := this.mem_iff.mp hq2
        simp only [List.mem_map] at hq3
        obtain ⟨r, hr, rfl⟩ := hq3
        rw [List.mem_filter] at hr
        exact ⟨r, hr.1, hr.2, rfl⟩
  · rw [if_neg hc]
    intro q hq
    exact Or.inl hq

/-! ## Decomposing the pass predicates -/

theorem softChecksPass_age (ar : ℤ × ℤ) (cts kws : List String)
    (kwCheck : List String → Product → Bool) (p : Product)
    (h : softChecksPass (some ar) cts kws kwCheck p = true) : ageCheck ar p = true := by
  simp only [softChecksPass, List.cons_append, List.isEmpty_cons, Bool.false_or,
    List.all_cons, List.all_append, Bool.and_eq_true, decide_eq_true_eq] at h
  exact h.1

theorem softChecksPass_kw (ar : Option (ℤ × ℤ)) (cts kws : List String)
    (kwCheck : List String → Product → Bool) (p : Product)
    (hk : kws.isEmpty = false) (h : softChecksPass ar cts kws kwCheck p = true) :
    kwCheck kws p = true := by
  simp only [softChecksPass, hk, Bool.false_eq_true, if_false] at h
  rcases har : ar with _ | r <;> rw [har] at h <;>
    by_cases hc : cts.isEmpty = true <;>
      simp only [hc, if_true, if_false, Bool.false_eq_true, List.nil_append,
        List.cons_append, List.append_nil, List.isEmpty_cons, List.isEmpty_nil,
        Bool.false_or, Bool.and_false, Bool.false_and,
        List.all_cons, List.all_append, List.all_nil, Bool.and_eq_true,
        Bool.and_true, Bool.true_and, decide_eq_true_eq] at h
  · exact h
  · exact h.2
  · exact h.2
  · exact h.2.2

theorem tier2Pass_parts (f ef : Filters) (ids : List Nat) (p : Product)
    (h : tier2Pass f ef ids p = true) :
    ids.contains p.id = false ∧ availTruthy p = true ∧ priceOverGuarded f p = false ∧
      softChecksPass f.ageRange ef.contentTypes ef.keywords kwCheckMorph p = true := by
  unfold tier2Pass at h
  cases h1 : ids.contains p.id with
  | true => rw [h1] at h; simp at h
  | false =>
      rw [h1] at h
      simp only [Bool.false_eq_true, if_false] at h
      cases h2 : availTruthy p with
      | false => rw [h2] at h; simp at h
      | true =>
          rw [h2] at h
          simp only [Bool.not_true, Bool.false_eq_true, if_false] at h
          cases h3 : priceOverGuarded f p with
          | true => rw [h3] at h; simp at h
          | false =>
              rw [h3] at h
              simp only [Bool.false_eq_true, if_false] at h
              exact ⟨rfl, rfl, rfl, h⟩

theorem tier3Pass_parts (f ef : Filters) (ids : List Nat) (p : Product)
    (h : tier3Pass f ef ids p = true) :
    ids.contains p.id = false ∧ availTruthy p = true ∧ priceOverGuarded f p = false ∧
      softChecksPass f.ageRange ef.contentTypes ef.keywords kwCheckPlain p = true := by
  unfold tier3Pass at h
  cases h1 : ids.contains p.id with
  | true => rw [h1] at h; simp at h
  | false =>
      rw [h1] at h
      simp only [Bool.false_eq_true, if_false] at h
      cases h2 : availTruthy p with
      | false => rw [h2] at h; simp at h
      | true =>
          rw [h2] at h
          simp only [Bool.not_true, Bool.false_eq_true, if_false] at h
          cases h3 : priceOverGuarded f p with
          | true => rw [h3] at h; simp at h
          | false =>
              rw [h3] at h
              simp only [Bool.false_eq_true, if_false] at h
              exact ⟨rfl, rfl, rfl, h⟩

theorem tier4Pass_parts (f ef : Filters) (ids : List Nat) (p : Product)
    (h : tier4Pass f ef ids p = true) :
    ids.contains p.id = false ∧ availTruthy p = true ∧ priceOverGuarded f p = false ∧
      softChecksPass f.ageRange ef.contentTypes ef.keywords kwCheckPlain p = true := by
  unfold tier4Pass at h
  cases h1 : ids.contains p.id with
  | true => rw [h1] at h; simp at h
  | false =>
      rw [h1] at h
      simp only [Bool.false_eq_true, if_false] at h
      cases h2 : availTruthy p with
      | false => rw [h2] at h; simp at h
      | true =>
          rw [h2] at h
          simp only [Bool.not_true, Bool.false_eq_true, if_false] at h
          cases h3 : priceOverGuarded f p with
          | true => rw [h3] at h; simp at h
          | false =>
              rw [h3] at h
              simp only [Bool.false_eq_true, if_false] at h
              exact ⟨rfl, rfl, rfl, h⟩

theorem tier5Pass_parts (f : Filters) (ids : List Nat) (p : Product)
    (h : tier5Pass f ids p = true) :
    ids.contains p.id = false ∧ availTruthy p = true ∧ priceOverGuarded f p = false := by
  unfold tier5Pass at h
  cases h1 : ids.contains p.id with
  | true => rw [h1] at h; simp at h
  | false =>
      rw [h1] at h
      simp only [Bool.false_eq_true, if_false] at h
      cases h2 : availTruthy p with
      | false => rw [h2] at h; simp at h
      | true =>
          rw [h2] at h
          simp only [Bool.not_true, Bool.false_eq_true, if_false] at h
          cases h3 : priceOverGuarded f p with
          | true => rw [h3] at h; simp at h
          | false => exact ⟨rfl, rfl, rfl⟩

/-- Conversely, an unseen, available, price-passing record passes Tier 5. -/
theorem tier5Pass_intro (f : Filters) (ids : List Nat) (p : Product)
    (h1 : ids.contains p.id = false) (h2 : availTruthy p = true)
    (h3 : priceOverGuarded f p = false) : tier5Pass f ids p = true := by
  unfold tier5Pass
  rw [h1, h2, h3]
  simp

/-- Tier 1 hard-constraint decomposition, in the presence of any filter. -/
theorem tier1Pass_parts (f : Filters) (p : Product)
    (hF : hasFilters f = true) (h : tier1Pass f (hasFilters f) p = true) :
    tier1AvailExcluded p = false ∧
      (jsTruthyQ f.maxPrice && priceOverBare f p) = false ∧
      (jsTruthyQ f.maxRuntime && runtimeOver f p) = false ∧
      softChecksPass f.ageRange f.contentTypes f.keywords kwCheckMorph p = true := by
  unfold tier1Pass at h
  rw [hF] at h
  cases h1 : tier1AvailExcluded p with
  | true => rw [h1] at h; simp at h
  | false =>
      rw [h1] at h
      simp only [Bool.false_eq_true, if_false, Bool.not_true] at h
      cases h2 : (jsTruthyQ f.maxPrice && priceOverBare f p) with
      | true => rw [h2] at h; simp at h
      | false =>
          rw [h2] at h
          simp only [Bool.false_eq_true, if_false] at h
          cases h3 : (jsTruthyQ f.maxRuntime && runtimeOver f p) with
          | true => rw [h3] at h; simp at h
          | false =>
              rw [h3] at h
              simp only [Bool.false_eq_true, if_false] at h
              exact ⟨rfl, rfl, rfl, h⟩

/-! ## Hard-constraint consequences of the price checks -/

/-- Items passing the bare Tier 1 price check with a nonzero cap have price
at most the cap (when they have a price at all). -/
theorem priceOverBare_le (f : Filters) (p : Product) (m pr : ℚ)
    (hm : f.maxPrice = some m) (hm0 : m ≠ 0) (hpr : p.price = some pr)
    (h : (jsTruthyQ f.maxPrice && priceOverBare f p) = false) : pr ≤ m := by
  rw [Bool.and_eq_false_iff] at h
  cases h with
  | inl h => rw [hm] at h; simp [jsTruthyQ, hm0] at h
  | inr h =>
      unfold priceOverBare at h
      rw [hm, hpr] at h
      simpa using h

/-- Items passing the guarded (Tier 2-5) price check with a positive cap
have price at most the cap. -/
theorem priceOverGuarded_le (f : Filters) (p : Product) (m pr : ℚ)
    (hm : f.maxPrice = some m) (hm0 : 0 < m) (hpr : p.price = some pr)
    (h : priceOverGuarded f p = false) : pr ≤ m := by
  unfold priceOverGuarded at h
  rw [Bool.and_eq_false_iff, Bool.and_eq_false_iff] at h
  rcases h with (h | h) | h
  · rw [hm] at h; simp [jsTruthyQ, ne_of_gt hm0] at h
  · -- product price is falsy, i.e. zero
    rw [hpr] at h
    simp only [jsTruthyQ, decide_eq_false_iff_not, not_not] at h
    rw [h]
    exact le_of_lt hm0
  · unfold priceOverBare at h
    rw [hm, hpr] at h
    simpa using h

/-- Items passing the Tier 1 runtime check with a truthy cap have runtime at
most the cap. -/
theorem runtimeOver_le (f : Filters) (p : Product) (m r : ℚ)
    (hm : f.maxRuntime = some m) (hm0 : m ≠ 0) (hr : p.runtime = some r)
    (h : (jsTruthyQ f.maxRuntime && runtimeOver f p) = false) : r ≤ m := by
  rw [Bool.and_eq_false_iff] at h
  cases h with
  | inl h => rw [hm] at h; simp [jsTruthyQ, hm0] at h
  | inr h =>
      unfold runtimeOver at h
      rw [hm, hr] at h
      simpa using h

/-! ## The catalog after a run: only the tag fields change -/

theorem clearTags_tag1 (p : Product) : clearTags (tag1 p) = clearTags p := rfl

theorem clearTags_tag2 (p : Product) : clearTags (tag2 p) = clearTags p := rfl

theorem clearTags_tagT (n : Nat) (p : Product) : clearTags (tagT n p) = clearTags p := rfl

theorem mutTag_clearTags (t : Product → Product) (sel : Product → Bool)
    (ht : ∀ p, clearTags (t p) = clearTags p) (l : List Product) :
    (mutTag t sel l).map clearTags = l.map clearTags := by
  induction l with
  | nil => rfl
  | cons a l ih =>
      simp only [mutTag, List.map_cons] at ih ⊢
      rw [ih]
      by_cases hs : sel a = true
      · rw [if_pos hs, ht]
      · rw [if_neg hs]

theorem stage1_cat (f : Filters) (cat : List Product) (st : TState)
    (h : stage1 f cat = .ok st) : st.cat.map clearTags = cat.map clearTags := by
  simp only [stage1] at h
  cases hs : scoreAndSort (cat.filter (tier1Pass f (hasFilters f))) f with
  | error e => rw [hs] at h; cases h
  | ok sorted =>
      rw [hs] at h
      cases h
      exact mutTag_clearTags _ _ clearTags_tag1 _

theorem stage2_cat (f : Filters) (st st' : TState)
    (h : stage2 f st = .ok st') : st'.cat.map clearTags = st.cat.map clearTags := by
  simp only [stage2] at h
  by_cases hc : (st.acc.length < 3 && (!f.keywords.isEmpty || !f.contentTypes.isEmpty)) = true
  · rw [if_pos hc] at h
    cases hs : scoreAndSort ((st.cat.filter
        (tier2Pass f (expandedFilters f) (st.acc.map (fun p => p.id)))).map tag2)
        (expandedFilters f) with
    | error e => rw [hs] at h; cases h
    | ok scored =>
        rw [hs] at h
        cases h
        exact mutTag_clearTags _ _ clearTags_tag2 _
  · rw [if_neg hc] at h
    cases h
    rfl

theorem stage3_cat (f : Filters) (st st' : TState)
    (h : stage3 f st = .ok st') : st'.cat.map clearTags = st.cat.map clearTags := by
  simp only [stage3] at h
  by_cases hc : (st.acc.length < 3 && (!f.keywords.isEmpty || !f.contentTypes.isEmpty)) = true
  · rw [if_pos hc] at h
    cases hs : scoreAndSort ((st.cat.filter
        (tier3Pass f (tier3Filters f) (st.acc.map (fun p => p.id)))).map (tagT 3))
        (tier3Filters f) with
    | error e => rw [hs] at h; cases h
    | ok scored =>
        rw [hs] at h
        cases h
        exact mutTag_clearTags _ _ (clearTags_tagT 3) _
  · rw [if_neg hc] at h
    cases h
    rfl

theorem stage4_cat (f : Filters) (st st' : TState)
    (h : stage4 f st = .ok st') : st'.cat.map clearTags = st.cat.map clearTags := by
  simp only [stage4] at h
  by_cases hc : (st.acc.length < 3 && (!f.keywords.isEmpty || !f.contentTypes.isEmpty)) = true
  · rw [if_pos hc] at h
    cases hs : scoreAndSort ((st.cat.filter
        (tier4Pass f (tier4Filters f) (st.acc.map (fun p => p.id)))).map (tagT 4))
        (tier4Filters f) with
    | error e => rw [hs] at h; cases h
    | ok scored =>
        rw [hs] at h
        cases h
        exact mutTag_clearTags _ _ (clearTags_tagT 4) _
  · rw [if_neg hc] at h
    cases h
    rfl

theorem stage5_cat (f : Filters) (st : TState) :
    (stage5 f st).cat.map clearTags = st.cat.map clearTags := by
  simp only [stage5]
  by_cases hc : st.acc.length < 3
  · rw [if_pos hc]
    exact mutTag_clearTags _ _ (clearTags_tagT 5) _
  · rw [if_neg hc]

/-- C6 (amended): running the tier pipeline does write the `tierUsed` /
`isExpanded` annotations onto the catalog records themselves (see the
counterexample), but it changes no other catalog field: after a completed
run every record agrees with its original on identifier, title, author,
description, content types, price, runtime, age range, availability and
novelty flag. -/
theorem preFilterWith_cat (f : Filters) (cat : List Product) (st : TState)
    (h : preFilterWith f cat = .ok st) : st.cat.map clearTags = cat.map clearTags := by
  unfold preFilterWith at h
  cases h1 : stage1 f cat with
  | error e => rw [h1] at h; cases h
  | ok s1 =>
      rw [h1] at h
      dsimp only at h
      cases h2 : stage2 f s1 with
      | error e => rw [h2] at h; cases h
      | ok s2 =>
          rw [h2] at h
          dsimp only at h
          cases h3 : stage3 f s2 with
          | error e => rw [h3] at h; cases h
          | ok s3 =>
              rw [h3] at h
              dsimp only at h
              cases h4 : stage4 f s3 with
              | error e => rw [h4] at h; cases h
              | ok s4 =>
                  rw [h4] at h
                  dsimp only at h
                  cases h
                  calc (stage5 f s4).cat.map clearTags
                      = s4.cat.map clearTags := stage5_cat f s4
                    _ = s3.cat.map clearTags := stage4_cat f s3 s4 h4
                    _ = s2.cat.map clearTags := stage3_cat f s2 s3 h3
                    _ = s1.cat.map clearTags := stage2_cat f s1 s2 h2
                    _ = cat.map clearTags := stage1_cat f cat s1 h1

/-- Clearing tags preserves identifiers, so a completed run preserves the
catalog's identifier sequence. -/
theorem ids_eq_of_clearTags (l l' : List Product)
    (h : l.map clearTags = l'.map clearTags) :
    l.map (fun p => p.id) = l'.map (fun p => p.id) := by
  have h1 : (l.map clearTags).map (fun p => p.id) = (l'.map clearTags).map (fun p => p.id) := by
    rw [h]
  simpa [List.map_map, Function.comp] using h1

theorem mem_of_clearTags_eq (l l' : List Product) (p : Product)
    (h : l.map clearTags = l'.map clearTags) (hp : p ∈ l') :
    ∃ p', p' ∈ l ∧ clearTags p' = clearTags p := by
  have h1 : clearTags p ∈ l.map clearTags := by
    rw [h]
    exact List.mem_map_of_mem clearTags hp
  rw [List.mem_map] at h1
  exact h1

theorem clearTags_eq_id (p' p : Product) (h : clearTags p' = clearTags p) :
    p'.id = p.id := by
  have h1 : (clearTags p').id = (clearTags p).id := congrArg (fun q => q.id) h
  exact h1

theorem clearTags_eq_avail (p' p : Product) (h : clearTags p' = clearTags p) :
    p'.availableForSale = p.availableForSale := by
  have h1 : (clearTags p').availableForSale = (clearTags p).availableForSale :=
    congrArg (fun q => q.availableForSale) h
  exact h1

theorem clearTags_eq_price (p' p : Product) (h : clearTags p' = clearTags p) :
    p'.price = p.price := by
  have h1 : (clearTags p').price = (clearTags p).price := congrArg (fun q => q.price) h
  exact h1

/-- `tier5Pass` reads only `id`, `availableForSale` and `price`, so it is
invariant under tag-stamping. -/
theorem tier5Pass_congr (f : Filters) (ids : List Nat) (p' p : Product)
    (h : clearTags p' = clearTags p) : tier5Pass f ids p' = tier5Pass f ids p := by
  unfold tier5Pass priceOverGuarded priceOverBare availTruthy
  rw [clearTags_eq_id p' p h, clearTags_eq_avail p' p h, clearTags_eq_price p' p h]

/-! ## Accumulator shape of each stage -/

theorem stage2_acc (f : Filters) (st st' : TState) (h : stage2 f st = .ok st') :
    st'.acc = st.acc ∨ ∃ r, st'.acc = st.acc ++ r := by
  simp only [stage2] at h
  by_cases hc : (st.acc.length < 3 && (!f.keywords.isEmpty || !f.contentTypes.isEmpty)) = true
  · rw [if_pos hc] at h
    cases hs : scoreAndSort ((st.cat.filter
        (tier2Pass f (expandedFilters f) (st.acc.map (fun p => p.id)))).map tag2)
        (expandedFilters f) with
    | error e => rw [hs] at h; cases h
    | ok scored => rw [hs] at h; cases h; exact Or.inr ⟨scored, rfl⟩
  · rw [if_neg hc] at h; cases h; exact Or.inl rfl

theorem stage3_acc (f : Filters) (st st' : TState) (h : stage3 f st = .ok st') :
    st'.acc = st.acc ∨ ∃ r, st'.acc = st.acc ++ r := by
  simp only [stage3] at h
  by_cases hc : (st.acc.length < 3 && (!f.keywords.isEmpty || !f.contentTypes.isEmpty)) = true
  · rw [if_pos hc] at h
    cases hs : scoreAndSort ((st.cat.filter
        (tier3Pass f (tier3Filters f) (st.acc.map (fun p => p.id)))).map (tagT 3))
        (tier3Filters f) with
    | error e => rw [hs] at h; cases h
    | ok scored => rw [hs] at h; cases h; exact Or.inr ⟨scored, rfl⟩
  · rw [if_neg hc] at h; cases h; exact Or.inl rfl

theorem stage4_acc (f : Filters) (st st' : TState) (h : stage4 f st = .ok st') :
    st'.acc = st.acc ∨ ∃ r, st'.acc = st.acc ++ r := by
  simp only [stage4] at h
  by_cases hc : (st.acc.length < 3 && (!f.keywords.isEmpty || !f.contentTypes.isEmpty)) = true
  · rw [if_pos hc] at h
    cases hs : scoreAndSort ((st.cat.filter
        (tier4Pass f (tier4Filters f) (st.acc.map (fun p => p.id)))).map (tagT 4))
        (tier4Filters f) with
    | error e => rw [hs] at h; cases h
    | ok scored => rw [hs] at h; cases h; exact Or.inr ⟨scored, rfl⟩
  · rw [if_neg hc] at h; cases h; exact Or.inl rfl

theorem stage5_acc_of_lt (f : Filters) (st : TState) (hc : st.acc.length < 3) :
    (stage5 f st).acc = st.acc ++
      ((List.insertionSort metaRel
        (st.cat.filter (tier5Pass f (st.acc.map (fun p => p.id))))).map (tagT 5)).take 10 := by
  simp only [stage5]
  rw [if_pos hc]

theorem stage5_acc_of_ge (f : Filters) (st : TState) (hc : ¬ st.acc.length < 3) :
    (stage5 f st).acc = st.acc := by
  simp only [stage5]
  rw [if_neg hc]

/-! ## Small list utilities -/

theorem take_ne_nil_of_ne_nil (l : List Product) (n : Nat) (hn : n ≠ 0) (h : l ≠ []) :
    l.take n ≠ [] := by
  cases l with
  | nil => exact absurd rfl h
  | cons a t =>
      cases n with
      | zero => exact absurd rfl hn
      | succ m => simp [List.take]

theorem append_ne_nil_left (l r : List Product) (h : l ≠ []) : l ++ r ≠ [] := by
  cases l with
  | nil => exact absurd rfl h
  | cons a t => simp

/-- The price precondition "within any stated price limit" forces the
guarded price check to pass. -/
theorem priceOverGuarded_false_of_within (f : Filters) (w : Product)
    (hp : ∀ m, f.maxPrice = some m → ∀ pr, w.price = some pr → pr ≤ m) :
    priceOverGuarded f w = false := by
  unfold priceOverGuarded priceOverBare
  cases hm : f.maxPrice with
  | none => simp [jsTruthyQ]
  | some m =>
      cases hpr : w.price with
      | none => simp [jsTruthyQ]
      | some pr =>
          have := hp m hm pr hpr
          simp [jsTruthyQ, not_lt_of_ge this]

/-- C1 (amended): when a run completes, an available catalog item within the
stated price and duration limits guarantees a non-empty final result. -/
theorem pipeline_nonempty (f : Filters) (cat : List Product) (st : TState) (w : Product)
    (hw : w ∈ cat) (ha : w.availableForSale = some true)
    (hp : ∀ m, f.maxPrice = some m → ∀ pr, w.price = some pr → pr ≤ m)
    (_hr : ∀ m, f.maxRuntime = some m → ∀ r, w.runtime = some r → r ≤ m)
    (hok : preFilterWith f cat = .ok st) : st.acc ≠ [] := by
  unfold preFilterWith at hok
  cases h1 : stage1 f cat with
  | error e => rw [h1] at hok; cases hok
  | ok s1 =>
      rw [h1] at hok; dsimp only at hok
      cases h2 : stage2 f s1 with
      | error e => rw [h2] at hok; cases hok
      | ok s2 =>
          rw [h2] at hok; dsimp only at hok
          cases h3 : stage3 f s2 with
          | error e => rw [h3] at hok; cases hok
          | ok s3 =>
              rw [h3] at hok; dsimp only at hok
              cases h4 : stage4 f s3 with
              | error e => rw [h4] at hok; cases hok
              | ok s4 =>
                  rw [h4] at hok; dsimp only at hok
                  cases hok
                  apply take_ne_nil_of_ne_nil _ 100 (by decide)
                  by_cases hlen : s4.acc.length < 3
                  · rw [stage5_acc_of_lt f s4 hlen]
                    by_cases hacc : s4.acc = []
                    · rw [hacc]
                      simp only [List.nil_append, List.map_nil]
                      apply take_ne_nil_of_ne_nil _ 10 (by decide)
                      have hcat : s4.cat.map clearTags = cat.map clearTags := by
                        calc s4.cat.map clearTags
                            = s3.cat.map clearTags := stage4_cat f s3 s4 h4
                          _ = s2.cat.map clearTags := stage3_cat f s2 s3 h3
                          _ = s1.cat.map clearTags := stage2_cat f s1 s2 h2
                          _ = cat.map clearTags := stage1_cat f cat s1 h1
                      obtain ⟨w', hw', hwc⟩ := mem_of_clearTags_eq s4.cat cat w hcat hw
                      have hpass : tier5Pass f [] w' = true := by
                        rw [tier5Pass_congr f [] w' w hwc]
                        apply tier5Pass_intro
                        · rfl
                        · simp [availTruthy, ha]
                        · exact priceOverGuarded_false_of_within f w hp
                      have hmem : w' ∈ s4.cat.filter (tier5Pass f []) :=
                        List.mem_filter.mpr ⟨hw', hpass⟩
                      have hfil : s4.cat.filter (tier5Pass f []) ≠ [] :=
                        List.ne_nil_of_mem hmem
                      intro hnil
                      rw [List.map_eq_nil_iff] at hnil
                      have hperm := List.perm_insertionSort metaRel (s4.cat.filter (tier5Pass f []))
                      rw [hnil] at hperm
                      exact hfil hperm.nil_eq.symm
                    · exact append_ne_nil_left _ _ hacc
                  · rw [stage5_acc_of_ge f s4 hlen]
                    exact List.length_pos.mp (by omega)

/-- A truthy `maxPrice` makes `hasFilters` true. -/
theorem hasFilters_of_maxPrice (f : Filters) (h : jsTruthyQ f.maxPrice = true) :
    hasFilters f = true := by
  unfold hasFilters
  rw [h]
  rfl

/-- A set age range makes `hasFilters` true. -/
theorem hasFilters_of_ageRange (f : Filters) (r : ℤ × ℤ) (h : f.ageRange = some r) :
    hasFilters f = true := by
  unfold hasFilters
  rw [h]
  simp

/-- A truthy `maxRuntime` makes `hasFilters` true. -/
theorem hasFilters_of_maxRuntime (f : Filters) (h : jsTruthyQ f.maxRuntime = true) :
    hasFilters f = true := by
  unfold hasFilters
  rw [h]
  simp

/-- C2 (amended): with a positive price cap, every item of the final output
has price at most the cap. -/
theorem maxPrice_invariant (f : Filters) (cat : List Product) (st : TState) (m : ℚ)
    (hm : f.maxPrice = some m) (hm0 : 0 < m)
    (hok : preFilterWith f cat = .ok st) :
    ∀ p ∈ st.acc, ∀ pr, p.price = some pr → pr ≤ m := by
  have htr : jsTruthyQ f.maxPrice = true := by
    rw [hm]; simp [jsTruthyQ, ne_of_gt hm0]
  unfold preFilterWith at hok
  cases h1 : stage1 f cat with
  | error e => rw [h1] at hok; cases hok
  | ok s1 =>
      rw [h1] at hok; dsimp only at hok
      cases h2 : stage2 f s1 with
      | error e => rw [h2] at hok; cases hok
      | ok s2 =>
          rw [h2] at hok; dsimp only at hok
          cases h3 : stage3 f s2 with
          | error e => rw [h3] at hok; cases hok
          | ok s3 =>
              rw [h3] at hok; dsimp only at hok
              cases h4 : stage4 f s3 with
              | error e => rw [h4] at hok; cases hok
              | ok s4 =>
                  rw [h4] at hok; dsimp only at hok
                  cases hok
                  intro p hp pr hpr
                  have hp5 : p ∈ (stage5 f s4).acc := List.take_subset 100 _ hp
                  rcases stage5_mem f s4 p hp5 with hin4 | ⟨r, _, hpass, rfl⟩
                  · rcases stage4_mem f s3 s4 h4 p hin4 with hin3 | ⟨r, _, hpass, rfl⟩
                    · rcases stage3_mem f s2 s3 h3 p hin3 with hin2 | ⟨r, _, hpass, rfl⟩
                      · rcases stage2_mem f s1 s2 h2 p hin2 with hin1 | ⟨r, _, hpass, rfl⟩
                        · obtain ⟨r, _, hpass, rfl⟩ := stage1_mem f cat s1 h1 p hin1
                          have hparts := tier1Pass_parts f r (hasFilters_of_maxPrice f htr) hpass
                          exact priceOverBare_le f r m pr hm (ne_of_gt hm0) hpr hparts.2.1
                        · exact priceOverGuarded_le f r m pr hm hm0 hpr
                            (tier2Pass_parts f _ _ r hpass).2.2.1
                      · exact priceOverGuarded_le f r m pr hm hm0 hpr
                          (tier3Pass_parts f _ _ r hpass).2.2.1
                    · exact priceOverGuarded_le f r m pr hm hm0 hpr
                        (tier4Pass_parts f _ _ r hpass).2.2.1
                  · exact priceOverGuarded_le f r m pr hm hm0 hpr
                      (tier5Pass_parts f _ r hpass).2.2

/-- C3 (amended): the duration cap is enforced at Tier 1: with a truthy
`maxRuntime`, every item of Tier 1's output has runtime at most the cap. -/
theorem tier1_runtime_invariant (f : Filters) (cat : List Product) (st : TState) (m : ℚ)
    (hm : f.maxRuntime = some m) (hm0 : m ≠ 0)
    (h1 : stage1 f cat = .ok st) :
    ∀ p ∈ st.acc, ∀ r, p.runtime = some r → r ≤ m := by
  have htr : jsTruthyQ f.maxRuntime = true := by
    rw [hm]; simp [jsTruthyQ, hm0]
  intro p hp r hr
  obtain ⟨q, _, hpass, rfl⟩ := stage1_mem f cat st h1 p hp
  have hparts := tier1Pass_parts f q (hasFilters_of_maxRuntime f htr) hpass
  exact runtimeOver_le f q m r hm hm0 hr hparts.2.2.1

/-- C4: with an age range set, every item contributed by Tiers 1-4 passes
the strict age-overlap check (and so carries age data). -/
theorem age_strict_tiers_1_to_4 (f : Filters) (r : ℤ × ℤ) (hr : f.ageRange = some r) :
    (∀ cat st, stage1 f cat = .ok st → ∀ p ∈ st.acc, ageCheck r p = true) ∧
    (∀ st st', stage2 f st = .ok st' → ∀ p ∈ st'.acc, p ∈ st.acc ∨ ageCheck r p = true) ∧
    (∀ st st', stage3 f st = .ok st' → ∀ p ∈ st'.acc, p ∈ st.acc ∨ ageCheck r p = true) ∧
    (∀ st st', stage4 f st = .ok st' → ∀ p ∈ st'.acc, p ∈ st.acc ∨ ageCheck r p = true) := by
  refine ⟨?_, ?_, ?_, ?_⟩
  · intro cat st h1 p hp
    obtain ⟨q, _, hpass, rfl⟩ := stage1_mem f cat st h1 p hp
    have hparts := tier1Pass_parts f q (hasFilters_of_ageRange f r hr) hpass
    have hsoft := hparts.2.2.2
    rw [hr] at hsoft
    exact softChecksPass_age r _ _ _ q hsoft
  · intro st st' h2 p hp
    rcases stage2_mem f st st' h2 p hp with hin | ⟨q, _, hpass, rfl⟩
    · exact Or.inl hin
    · right
      have hsoft := (tier2Pass_parts f _ _ q hpass).2.2.2
      rw [hr] at hsoft
      exact softChecksPass_age r _ _ _ q hsoft
  · intro st st' h3 p hp
    rcases stage3_mem f st st' h3 p hp with hin | ⟨q, _, hpass, rfl⟩
    · exact Or.inl hin
    · right
      have hsoft := (tier3Pass_parts f _ _ q hpass).2.2.2
      rw [hr] at hsoft
      exact softChecksPass_age r _ _ _ q hsoft
  · intro st st' h4 p hp
    rcases stage4_mem f st st' h4 p hp with hin | ⟨q, _, hpass, rfl⟩
    · exact Or.inl hin
    · right
      have hsoft := (tier4Pass_parts f _ _ q hpass).2.2.2
      rw [hr] at hsoft
      exact softChecksPass_age r _ _ _ q hsoft

/-! ## Identifier uniqueness across the tiers -/

theorem not_mem_of_contains_false (ids : List Nat) (x : Nat)
    (h : ids.contains x = false) : x ∉ ids := by
  simpa using h

theorem map_id_tag (t : Product → Product) (ht : ∀ p, (t p).id = p.id)
    (l : List Product) :
    (l.map t).map (fun p => p.id) = l.map (fun p => p.id) := by
  simp [List.map_map, Function.comp, ht]

/-- Appending a scored tier contribution preserves identifier uniqueness:
its members come from the catalog (unique ids) and were filtered by an
`existingIds` check against the accumulator. -/
theorem appended_ids_nodup (acc cat0 scored : List Product)
    (sel : Product → Bool) (tg : Product → Product)
    (hid : ∀ p, (tg p).id = p.id)
    (hperm : scored.Perm ((cat0.filter sel).map tg))
    (hsel : ∀ p, sel p = true → (acc.map (fun q => q.id)).contains p.id = false)
    (hacc : (acc.map (fun q => q.id)).Nodup)
    (hcat : (cat0.map (fun q => q.id)).Nodup) :
    ((acc ++ scored).map (fun q => q.id)).Nodup := by
  rw [List.map_append, List.nodup_append]
  have hpermIds : (scored.map (fun q => q.id)).Perm
      ((cat0.filter sel).map (fun q => q.id)) := by
    have hthis := hperm.map (fun q => q.id)
    rwa [map_id_tag tg hid] at hthis
  have hsub : ((cat0.filter sel).map (fun q => q.id)).Sublist
      (cat0.map (fun q => q.id)) := (List.filter_sublist cat0).map _
  refine ⟨hacc, hpermIds.nodup_iff.mpr (hsub.nodup hcat), ?_⟩
  intro x hx hx'
  have hx2 := hpermIds.mem_iff.mp hx'
  rw [List.mem_map] at hx2
  obtain ⟨q, hqmem, rfl⟩ := hx2
  rw [List.mem_filter] at hqmem
  exact not_mem_of_contains_false _ _ (hsel q hqmem.2) hx

theorem stage1_ids_nodup (f : Filters) (cat : List Product) (st : TState)
    (h : stage1 f cat = .ok st)
    (hcat : (cat.map (fun p => p.id)).Nodup) :
    (st.acc.map (fun p => p.id)).Nodup := by
  simp only [stage1] at h
  cases hs : scoreAndSort (cat.filter (tier1Pass f (hasFilters f))) f with
  | error e => rw [hs] at h; cases h
  | ok sorted =>
      rw [hs] at h
      cases h
      have hperm : (sorted.map (fun p => p.id)).Perm
          ((cat.filter (tier1Pass f (hasFilters f))).map (fun p => p.id)) :=
        (scoreAndSort_perm _ _ _ hs).map _
      have hsub : ((cat.filter (tier1Pass f (hasFilters f))).map
          (fun p => p.id)).Sublist (cat.map (fun p => p.id)) :=
        (List.filter_sublist cat).map _
      have h1 : (sorted.map (fun p => p.id)).Nodup :=
        hperm.nodup_iff.mpr (hsub.nodup hcat)
      rw [map_id_tag tag1 (fun _ => rfl)]
      exact h1

theorem stage2_ids_nodup (f : Filters) (st st' : TState)
    (h : stage2 f st = .ok st')
    (hacc : (st.acc.map (fun p => p.id)).Nodup)
    (hcat : (st.cat.map (fun p => p.id)).Nodup) :
    (st'.acc.map (fun p => p.id)).Nodup := by
  simp only [stage2] at h
  by_cases hc : (st.acc.length < 3 && (!f.keywords.isEmpty || !f.contentTypes.isEmpty)) = true
  · rw [if_pos hc] at h
    cases hs : scoreAndSort ((st.cat.filter
        (tier2Pass f (expandedFilters f) (st.acc.map (fun p => p.id)))).map tag2)
        (expandedFilters f) with
    | error e => rw [hs] at h; cases h
    | ok scored =>
        rw [hs] at h
        cases h
        exact appended_ids_nodup st.acc st.cat scored _ tag2 (fun _ => rfl)
          (scoreAndSort_perm _ _ _ hs)
          (fun p hp => (tier2Pass_parts f _ _ p hp).1) hacc hcat
  · rw [if_neg hc] at h
    cases h
    exact hacc

theorem stage3_ids_nodup (f : Filters) (st st' : TState)
    (h : stage3 f st = .ok st')
    (hacc : (st.acc.map (fun p => p.id)).Nodup)
    (hcat : (st.cat.map (fun p => p.id)).Nodup) :
    (st'.acc.map (fun p => p.id)).Nodup := by
  simp only [stage3] at h
  by_cases hc : (st.acc.length < 3 && (!f.keywords.isEmpty || !f.contentTypes.isEmpty)) = true
  · rw [if_pos hc] at h
    cases hs : scoreAndSort ((st.cat.filter
        (tier3Pass f (tier3Filters f) (st.acc.map (fun p => p.id)))).map (tagT 3))
        (tier3Filters f) with
    | error e => rw [hs] at h; cases h
    | ok scored =>
        rw [hs] at h
        cases h
        exact appended_ids_nodup st.acc st.cat scored _ (tagT 3) (fun _ => rfl)
          (scoreAndSort_perm _ _ _ hs)
          (fun p hp => (tier3Pass_parts f _ _ p hp).1) hacc hcat
  · rw [if_neg hc] at h
    cases h
    exact hacc

theorem stage4_ids_nodup (f : Filters) (st st' : TState)
    (h : stage4 f st = .ok st')
    (hacc : (st.acc.map (fun p => p.id)).Nodup)
    (hcat : (st.cat.map (fun p => p.id)).Nodup) :
    (st'.acc.map (fun p => p.id)).Nodup := by
  simp only [stage4] at h
  by_cases hc : (st.acc.length < 3 && (!f.keywords.isEmpty || !f.contentTypes.isEmpty)) = true
  · rw [if_pos hc] at h
    cases hs : scoreAndSort ((st.cat.filter
        (tier4Pass f (tier4Filters f) (st.acc.map (fun p => p.id)))).map (tagT 4))
        (tier4Filters f) with
    | error e => rw [hs] at h; cases h
    | ok scored =>
        rw [hs] at h
        cases h
        exact appended_ids_nodup st.acc st.cat scored _ (tagT 4) (fun _ => rfl)
          (scoreAndSort_perm _ _ _ hs)
          (fun p hp => (tier4Pass_parts f _ _ p hp).1) hacc hcat
  · rw [if_neg hc] at h
    cases h
    exact hacc

theorem stage5_ids_nodup (f : Filters) (st : TState)
    (hacc : (st.acc.map (fun p => p.id)).Nodup)
    (hcat : (st.cat.map (fun p => p.id)).Nodup) :
    ((stage5 f st).acc.map (fun p => p.id)).Nodup := by
  by_cases hc : st.acc.length < 3
  · rw [stage5_acc_of_lt f st hc]
    have hperm : ((List.insertionSort metaRel
        (st.cat.filter (tier5Pass f (st.acc.map (fun p => p.id))))).map (tagT 5)).Perm
        ((st.cat.filter (tier5Pass f (st.acc.map (fun p => p.id)))).map (tagT 5)) :=
      (List.perm_insertionSort metaRel _).map _
    have full : ((((List.insertionSort metaRel
        (st.cat.filter (tier5Pass f (st.acc.map (fun p => p.id))))).map (tagT 5))).map
          (fun p => p.id)).Nodup := by
      rw [map_id_tag (tagT 5) (fun _ => rfl)]
      have hpermIds : ((List.insertionSort metaRel
          (st.cat.filter (tier5Pass f (st.acc.map (fun p => p.id))))).map
            (fun p => p.id)).Perm
          ((st.cat.filter (tier5Pass f (st.acc.map (fun p => p.id)))).map
            (fun p => p.id)) :=
        (List.perm_insertionSort metaRel _).map _
      have hsub : ((st.cat.filter (tier5Pass f (st.acc.map (fun p => p.id)))).map
          (fun p => p.id)).Sublist (st.cat.map (fun p => p.id)) :=
        (List.filter_sublist st.cat).map _
      exact hpermIds.nodup_iff.mpr (hsub.nodup hcat)
    have hnd := (List.Sublist.map (fun p => p.id)
      (List.take_sublist 10 ((List.insertionSort metaRel
        (st.cat.filter (tier5Pass f (st.acc.map (fun p => p.id))))).map (tagT 5)))).nodup full
    rw [List.map_append, List.nodup_append]
    refine ⟨hacc, hnd, ?_⟩
    intro x hx hx'
    rw [List.mem_map] at hx'
    obtain ⟨q, hqmem, rfl⟩ := hx'
    have hq2 := List.take_subset 10 _ hqmem
    have hq3 := hperm.mem_iff.mp hq2
    rw [List.mem_map] at hq3
    obtain ⟨r, hrmem, rfl⟩ := hq3
    rw [List.mem_filter] at hrmem
    exact not_mem_of_contains_false _ _ ((tier5Pass_parts f _ r hrmem.2).1) hx
  · rw [stage5_acc_of_ge f st hc]
    exact hacc

/-- When catalog identifiers are pairwise distinct, the final merged output
has no duplicate identifiers. -/
theorem pipeline_ids_nodup (f : Filters) (cat : List Product) (st : TState)
    (hcat : (cat.map (fun p => p.id)).Nodup)
    (hok : preFilterWith f cat = .ok st) :
    (st.acc.map (fun p => p.id)).Nodup := by
  unfold preFilterWith at hok
  cases h1 : stage1 f cat with
  | error e => rw [h1] at hok; cases hok
  | ok s1 =>
      rw [h1] at hok; dsimp only at hok
      cases h2 : stage2 f s1 with
      | error e => rw [h2] at hok; cases hok
      | ok s2 =>
          rw [h2] at hok; dsimp only at hok
          cases h3 : stage3 f s2 with
          | error e => rw [h3] at hok; cases hok
          | ok s3 =>
              rw [h3] at hok; dsimp only at hok
              cases h4 : stage4 f s3 with
              | error e => rw [h4] at hok; cases hok
              | ok s4 =>
                  rw [h4] at hok; dsimp only at hok
                  cases hok
                  have hc1 : s1.cat.map (fun p => p.id) = cat.map (fun p => p.id) :=
                    ids_eq_of_clearTags _ _ (stage1_cat f cat s1 h1)
                  have hc2 : s2.cat.map (fun p => p.id) = cat.map (fun p => p.id) := by
                    rw [ids_eq_of_clearTags _ _ (stage2_cat f s1 s2 h2), hc1]
                  have hc3 : s3.cat.map (fun p => p.id) = cat.map (fun p => p.id) := by
                    rw [ids_eq_of_clearTags _ _ (stage3_cat f s2 s3 h3), hc2]
                  have hc4 : s4.cat.map (fun p => p.id) = cat.map (fun p => p.id) := by
                    rw [ids_eq_of_clearTags _ _ (stage4_cat f s3 s4 h4), hc3]
                  have n1 := stage1_ids_nodup f cat s1 h1 hcat
                  have n2 := stage2_ids_nodup f s1 s2 h2 n1 (hc1 ▸ hcat)
                  have n3 := stage3_ids_nodup f s2 s3 h3 n2 (hc2 ▸ hcat)
                  have n4 := stage4_ids_nodup f s3 s4 h4 n3 (hc3 ▸ hcat)
                  have n5 := stage5_ids_nodup f s4 n4 (hc4 ▸ hcat)
                  exact (List.Sublist.map (fun p => p.id)
                    (List.take_sublist 100 (stage5 f s4).acc)).nodup n5

/-! ## Keyword rule per tier (Tiers 1-2 morphological, Tiers 3-4 plain) -/

theorem hasFilters_of_keywords (f : Filters) (h : f.keywords.isEmpty = false) :
    hasFilters f = true := by
  unfold hasFilters
  rw [h]
  simp

theorem tier1Pass_kw (f : Filters) (p : Product)
    (hk : f.keywords.isEmpty = false) (h : tier1Pass f (hasFilters f) p = true) :
    kwCheckMorph f.keywords p = true :=
  softChecksPass_kw f.ageRange f.contentTypes f.keywords kwCheckMorph p hk
    (tier1Pass_parts f p (hasFilters_of_keywords f hk) h).2.2.2

theorem tier2Pass_kw (f ef : Filters) (ids : List Nat) (p : Product)
    (hk : ef.keywords.isEmpty = false) (h : tier2Pass f ef ids p = true) :
    kwCheckMorph ef.keywords p = true :=
  softChecksPass_kw f.ageRange ef.contentTypes ef.keywords kwCheckMorph p hk
    (tier2Pass_parts f ef ids p h).2.2.2

theorem tier3Pass_kw (f ef : Filters) (ids : List Nat) (p : Product)
    (hk : ef.keywords.isEmpty = false) (h : tier3Pass f ef ids p = true) :
    kwCheckPlain ef.keywords p = true :=
  softChecksPass_kw f.ageRange ef.contentTypes ef.keywords kwCheckPlain p hk
    (tier3Pass_parts f ef ids p h).2.2.2

theorem tier4Pass_kw (f ef : Filters) (ids : List Nat) (p : Product)
    (hk : ef.keywords.isEmpty = false) (h : tier4Pass f ef ids p = true) :
    kwCheckPlain ef.keywords p = true :=
  softChecksPass_kw f.ageRange ef.contentTypes ef.keywords kwCheckPlain p hk
    (tier4Pass_parts f ef ids p h).2.2.2

/-! ## The availability asymmetry (claim C10) -/

theorem tier2Pass_of_avail_falsy (f ef : Filters) (ids : List Nat) (p : Product)
    (h : availTruthy p = false) : tier2Pass f ef ids p = false := by
  unfold tier2Pass
  rw [h]
  simp

theorem tier3Pass_of_avail_falsy (f ef : Filters) (ids : List Nat) (p : Product)
    (h : availTruthy p = false) : tier3Pass f ef ids p = false := by
  unfold tier3Pass
  rw [h]
  simp

theorem tier4Pass_of_avail_falsy (f ef : Filters) (ids : List Nat) (p : Product)
    (h : availTruthy p = false) : tier4Pass f ef ids p = false := by
  unfold tier4Pass
  rw [h]
  simp

theorem tier5Pass_of_avail_falsy (f : Filters) (ids : List Nat) (p : Product)
    (h : availTruthy p = false) : tier5Pass f ids p = false := by
  unfold tier5Pass
  rw [h]
  simp

theorem availTruthy_of_none (p : Product) (h : p.availableForSale = none) :
    availTruthy p = false := by
  simp [availTruthy, h]

theorem tier1AvailExcluded_of_none (p : Product) (h : p.availableForSale = none) :
    tier1AvailExcluded p = false := by
  simp [tier1AvailExcluded, h]

theorem mutTag_eq_self (t : Product → Product) (sel : Product → Bool)
    (l : List Product) (h : ∀ p ∈ l, sel p = false) : mutTag t sel l = l := by
  induction l with
  | nil => rfl
  | cons a l ih =>
      have htl : mutTag t sel l = l := ih (fun p hp => h p (List.mem_cons_of_mem a hp))
      simp only [mutTag, List.map_cons] at htl ⊢
      rw [h a (List.mem_cons_self a l), htl]
      simp

theorem stage1_all_fail (f : Filters) (cat : List Product)
    (h : ∀ p ∈ cat, tier1Pass f (hasFilters f) p = false) :
    stage1 f cat = .ok ⟨[], cat⟩ := by
  have hfil : cat.filter (tier1Pass f (hasFilters f)) = [] := by
    rw [List.filter_eq_nil_iff]
    intro a ha
    simp [h a ha]
  simp only [stage1, hfil]
  have hss : scoreAndSort ([] : List Product) f = .ok [] := rfl
  rw [hss]
  rw [mutTag_eq_self tag1 _ cat h]
  rfl

theorem stage2_all_fail (f : Filters) (cat : List Product)
    (h : ∀ p ∈ cat, tier2Pass f (expandedFilters f) ([] : List Nat) p = false) :
    stage2 f ⟨[], cat⟩ = .ok ⟨[], cat⟩ := by
  simp only [stage2, List.map_nil, List.length_nil, List.nil_append]
  by_cases hc : ((0 : Nat) < 3 && (!f.keywords.isEmpty || !f.contentTypes.isEmpty)) = true
  · rw [if_pos hc]
    have hfil : cat.filter (tier2Pass f (expandedFilters f) ([] : List Nat)) = [] := by
      rw [List.filter_eq_nil_iff]
      intro a ha
      simp [h a ha]
    rw [hfil]
    have hss : scoreAndSort ([] : List Product) (expandedFilters f) = .ok [] := rfl
    simp only [List.map_nil]
    rw [hss, mutTag_eq_self tag2 _ cat h]
  · rw [if_neg hc]

theorem stage3_all_fail (f : Filters) (cat : List Product)
    (h : ∀ p ∈ cat, tier3Pass f (tier3Filters f) ([] : List Nat) p = false) :
    stage3 f ⟨[], cat⟩ = .ok ⟨[], cat⟩ := by
  simp only [stage3, List.map_nil, List.length_nil, List.nil_append]
  by_cases hc : ((0 : Nat) < 3 && (!f.keywords.isEmpty || !f.contentTypes.isEmpty)) = true
  · rw [if_pos hc]
    have hfil : cat.filter (tier3Pass f (tier3Filters f) ([] : List Nat)) = [] := by
      rw [List.filter_eq_nil_iff]
      intro a ha
      simp [h a ha]
    rw [hfil]
    have hss : scoreAndSort ([] : List Product) (tier3Filters f) = .ok [] := rfl
    simp only [List.map_nil]
    rw [hss, mutTag_eq_self (tagT 3) _ cat h]
  · rw [if_neg hc]

theorem stage4_all_fail (f : Filters) (cat : List Product)
    (h : ∀ p ∈ cat, tier4Pass f (tier4Filters f) ([] : List Nat) p = false) :
    stage4 f ⟨[], cat⟩ = .ok ⟨[], cat⟩ := by
  simp only [stage4, List.map_nil, List.length_nil, List.nil_append]
  by_cases hc : ((0 : Nat) < 3 && (!f.keywords.isEmpty || !f.contentTypes.isEmpty)) = true
  · rw [if_pos hc]
    have hfil : cat.filter (tier4Pass f (tier4Filters f) ([] : List Nat)) = [] := by
      rw [List.filter_eq_nil_iff]
      intro a ha
      simp [h a ha]
    rw [hfil]
    have hss : scoreAndSort ([] : List Product) (tier4Filters f) = .ok [] := rfl
    simp only [List.map_nil]
    rw [hss, mutTag_eq_self (tagT 4) _ cat h]
  · rw [if_neg hc]

theorem stage5_all_fail (f : Filters) (cat : List Product)
    (h : ∀ p ∈ cat, tier5Pass f ([] : List Nat) p = false) :
    stage5 f ⟨[], cat⟩ = ⟨[], cat⟩ := by
  simp only [stage5, List.map_nil, List.length_nil, List.nil_append]
  rw [if_pos (by simp)]
  have hfil : cat.filter (tier5Pass f ([] : List Nat)) = [] := by
    rw [List.filter_eq_nil_iff]
    intro a ha
    simp [h a ha]
  rw [hfil, mutTag_eq_self (tagT 5) _ cat h]
  rfl

/-- A catalog whose records all lack the availability flag yields an empty
final output whenever every record fails the Tier 1 filter, and the catalog
itself is left unchanged. -/
theorem pipeline_empty_of_unavailable (f : Filters) (cat : List Product)
    (hav : ∀ p ∈ cat, p.availableForSale = none)
    (ht1 : ∀ p ∈ cat, tier1Pass f (hasFilters f) p = false) :
    preFilterWith f cat = .ok ⟨[], cat⟩ := by
  have h1 := stage1_all_fail f cat ht1
  have h2 := stage2_all_fail f cat (fun p hp =>
    tier2Pass_of_avail_falsy f (expandedFilters f) [] p
      (availTruthy_of_none p (hav p hp)))
  have h3 := stage3_all_fail f cat (fun p hp =>
    tier3Pass_of_avail_falsy f (tier3Filters f) [] p
      (availTruthy_of_none p (hav p hp)))
  have h4 := stage4_all_fail f cat (fun p hp =>
    tier4Pass_of_avail_falsy f (tier4Filters f) [] p
      (availTruthy_of_none p (hav p hp)))
  have h5 := stage5_all_fail f cat (fun p hp =>
    tier5Pass_of_avail_falsy f [] p
      (availTruthy_of_none p (hav p hp)))
  unfold preFilterWith
  rw [h1]
  dsimp only
  rw [h2]
  dsimp only
  rw [h3]
  dsimp only
  rw [h4]
  dsimp only
  rw [h5]
  rfl


/-! ## The claims -/

/-- C1 counterexample: a catalog holding one available item (no price or
duration limit is stated, so it trivially satisfies them), yet the pipeline
produces no output at all: the item has no `title`, it passes the Tier 1
filter through its description, and scoring throws. -/
theorem pipeline_nonempty_counterexample :
    itemOcean.availableForSale = some true ∧
    (extractFilters "ocean").maxPrice = none ∧
    (extractFilters "ocean").maxRuntime = none ∧
    preFilterWith (extractFilters "ocean") [itemOcean] = .error () :=
  ⟨rfl, rfl, rfl, rfl⟩

/-- C1 witness. -/
theorem pipeline_nonempty_witness :
    ([{ itemLantern with tierUsed := some 1 }] : List Product) ≠ [] :=
  pipeline_nonempty (extractFilters "") [itemLantern]
    ⟨[{ itemLantern with tierUsed := some 1 }], [{ itemLantern with tierUsed := some 1 }]⟩
    itemLantern (by decide) rfl
    (fun m hm => Option.noConfusion (show (none : Option ℚ) = some m from hm))
    (fun m hm => Option.noConfusion (show (none : Option ℚ) = some m from hm))
    rfl

/-- C2 counterexample: `extractMaxPrice "under £0"` yields the set cap `0`,
which is falsy in JavaScript, so every price check is skipped and an item
priced 5 > 0 reaches the final output. -/
theorem maxPrice_zero_counterexample :
    extractMaxPrice "under £0" = some 0 ∧
    preFilterWith (extractFilters "under £0") [itemKite] =
      .ok ⟨[{ itemKite with tierUsed := some 1 }], [{ itemKite with tierUsed := some 1 }]⟩ ∧
    ({ itemKite with tierUsed := some 1 } : Product).price = some 5 ∧
    ¬ ((5 : ℚ) ≤ 0) :=
  ⟨rfl, rfl, rfl, by decide⟩

/-- C2 witness. -/
theorem maxPrice_invariant_witness : (5 : ℚ) ≤ 10 :=
  maxPrice_invariant fPrice10 [itemBoat]
    ⟨[{ itemBoat with tierUsed := some 1 }], [{ itemBoat with tierUsed := some 1 }]⟩
    10 rfl (by decide) rfl
    { itemBoat with tierUsed := some 1 } (by decide) 5 rfl

/-- C3 counterexample: with `maxRuntime = 300` seconds extracted from the
query, Tier 5 (which re-checks only availability and price) returns an item
whose runtime is 9999 seconds. -/
theorem duration_relaxed_counterexample :
    (extractFilters "under 5 min xq").maxRuntime = some 300 ∧
    preFilterWith (extractFilters "under 5 min xq") [itemLong] =
      .ok ⟨[{ itemLong with tierUsed := some 5 }], [{ itemLong with tierUsed := some 5 }]⟩ ∧
    ({ itemLong with tierUsed := some 5 } : Product).runtime = some 9999 ∧
    ¬ ((9999 : ℚ) ≤ 300) :=
  ⟨rfl, rfl, rfl, by decide⟩

/-- C3 witness. -/
theorem tier1_runtime_invariant_witness : (300 : ℚ) ≤ 600 :=
  tier1_runtime_invariant fRt600 [itemPond]
    ⟨[{ itemPond with tierUsed := some 1 }], [{ itemPond with tierUsed := some 1 }]⟩
    600 rfl (by decide) rfl
    { itemPond with tierUsed := some 1 } (by decide) 300 rfl

/-- C4 witness. -/
theorem age_strict_tiers_1_to_4_witness :
    ageCheck (1, 3) { itemLamp with tierUsed := some 1 } = true :=
  (age_strict_tiers_1_to_4 fAge (1, 3) rfl).1 [itemLamp]
    ⟨[{ itemLamp with tierUsed := some 1 }], [{ itemLamp with tierUsed := some 1 }]⟩
    rfl { itemLamp with tierUsed := some 1 } (by decide)

/-- C5 (code bug): a catalog record without a `title` that passes the Tier 1
filter via its description makes `scoreAndSortProducts` throw
(`product.title.toLowerCase()` on `undefined`, line 1036), and the exception
propagates out of `preFilterProducts`, contradicting the spec's mandate that
a missing field only fails soft checks and no exception escapes. -/
theorem missing_title_throws :
    itemPuzzle.title = none ∧
    (extractFilters "puzzle").keywords = ["puzzle"] ∧
    scoreAndSort [itemPuzzle] (extractFilters "puzzle") = .error () ∧
    preFilterWith (extractFilters "puzzle") [itemPuzzle] = .error () :=
  ⟨rfl, rfl, rfl, rfl⟩

/-- C6 counterexample: running the pipeline on a catalog of one available
item stamps `tierUsed = 1` onto the catalog record itself: the catalog after
the run differs from the catalog before it. -/
theorem catalog_mutation_counterexample :
    preFilterWith (extractFilters "") [itemFox] =
      .ok ⟨[{ itemFox with tierUsed := some 1 }], [{ itemFox with tierUsed := some 1 }]⟩ ∧
    itemFox.tierUsed = none ∧
    ([{ itemFox with tierUsed := some 1 }] : List Product) ≠ [itemFox] :=
  ⟨rfl, rfl, by decide⟩

/-- C6 witness. -/
theorem preFilterWith_cat_witness :
    ([{ itemPearl with tierUsed := some 1 }] : List Product).map clearTags =
      ([itemPearl] : List Product).map clearTags :=
  preFilterWith_cat (extractFilters "") [itemPearl]
    ⟨[{ itemPearl with tierUsed := some 1 }], [{ itemPearl with tierUsed := some 1 }]⟩
    rfl

/-- C7 (amended): later tiers never re-select an identifier already chosen
by an earlier tier (the `existingIds` exclusion, unconditionally), and when
the catalog itself has pairwise-distinct identifiers the final merged output
has no duplicate identifiers.  (The original claim fails when the catalog
holds two records with the same identifier: see the counterexample.) -/
theorem tier_ids_unique (f : Filters) :
    (∀ cat st, (cat.map (fun p => p.id)).Nodup → preFilterWith f cat = .ok st →
      (st.acc.map (fun p => p.id)).Nodup) ∧
    (∀ st st', stage2 f st = .ok st' → ∀ p ∈ st'.acc,
      p ∈ st.acc ∨ p.id ∉ st.acc.map (fun q => q.id)) ∧
    (∀ st st', stage3 f st = .ok st' → ∀ p ∈ st'.acc,
      p ∈ st.acc ∨ p.id ∉ st.acc.map (fun q => q.id)) ∧
    (∀ st st', stage4 f st = .ok st' → ∀ p ∈ st'.acc,
      p ∈ st.acc ∨ p.id ∉ st.acc.map (fun q => q.id)) ∧
    (∀ st, ∀ p ∈ (stage5 f st).acc,
      p ∈ st.acc ∨ p.id ∉ st.acc.map (fun q => q.id)) := by
  refine ⟨fun cat st h1 h2 => pipeline_ids_nodup f cat st h1 h2, ?_, ?_, ?_, ?_⟩
  · intro st st' h p hp
    rcases stage2_mem f st st' h p hp with hin | ⟨q, _, hpass, rfl⟩
    · exact Or.inl hin
    · exact Or.inr (not_mem_of_contains_false _ _ (tier2Pass_parts f _ _ q hpass).1)
  · intro st st' h p hp
    rcases stage3_mem f st st' h p hp with hin | ⟨q, _, hpass, rfl⟩
    · exact Or.inl hin
    · exact Or.inr (not_mem_of_contains_false _ _ (tier3Pass_parts f _ _ q hpass).1)
  · intro st st' h p hp
    rcases stage4_mem f st st' h p hp with hin | ⟨q, _, hpass, rfl⟩
    · exact Or.inl hin
    · exact Or.inr (not_mem_of_contains_false _ _ (tier4Pass_parts f _ _ q hpass).1)
  · intro st p hp
    rcases stage5_mem f st p hp with hin | ⟨q, _, hpass, rfl⟩
    · exact Or.inl hin
    · exact Or.inr (not_mem_of_contains_false _ _ (tier5Pass_parts f _ q hpass).1)

/-- C7 counterexample: the catalog may contain two records with the same
identifier; both pass Tier 1, and the final merged output carries the
duplicate identifier (there is no final dedup in the code). -/
theorem duplicate_ids_counterexample :
    preFilterWith (extractFilters "") [itemDupA, itemDupB] =
      .ok ⟨[{ itemDupA with tierUsed := some 1 }, { itemDupB with tierUsed := some 1 }],
           [{ itemDupA with tierUsed := some 1 }, { itemDupB with tierUsed := some 1 }]⟩ ∧
    ¬ (([{ itemDupA with tierUsed := some 1 },
          { itemDupB with tierUsed := some 1 }] : List Product).map
        (fun p => p.id)).Nodup :=
  ⟨rfl, by decide⟩

/-- C7 witness. -/
theorem tier_ids_unique_witness :
    (([{ itemRope with tierUsed := some 1 }] : List Product).map
      (fun p => p.id)).Nodup :=
  (tier_ids_unique (extractFilters "")).1 [itemRope]
    ⟨[{ itemRope with tierUsed := some 1 }], [{ itemRope with tierUsed := some 1 }]⟩
    (by decide) rfl

/-- C8: the query "songs about buses for under 2 year olds" extracts the age
window `[1, 3]` (age 2 ± 1) and no maximum price (no currency cue), the
currency-symbol regression scenario. -/
theorem bus_query_extraction :
    (extractFilters "songs about buses for under 2 year olds").ageRange = some (1, 3) ∧
    (extractFilters "songs about buses for under 2 year olds").maxPrice = none :=
  ⟨rfl, rfl⟩

/-- C9 (amended): an item passing a tier with keywords specified satisfies
that tier's keyword rule — the morphological tolerance rule at Tiers 1 and
2, but only plain substring matching at Tiers 3 and 4. -/
theorem keyword_rule_per_tier (f ef : Filters) (ids : List Nat) (p : Product) :
    (f.keywords.isEmpty = false → tier1Pass f (hasFilters f) p = true →
      kwCheckMorph f.keywords p = true) ∧
    (ef.keywords.isEmpty = false → tier2Pass f ef ids p = true →
      kwCheckMorph ef.keywords p = true) ∧
    (ef.keywords.isEmpty = false → tier3Pass f ef ids p = true →
      kwCheckPlain ef.keywords p = true) ∧
    (ef.keywords.isEmpty = false → tier4Pass f ef ids p = true →
      kwCheckPlain ef.keywords p = true) :=
  ⟨fun hk h => tier1Pass_kw f p hk h,
   fun hk h => tier2Pass_kw f ef ids p hk h,
   fun hk h => tier3Pass_kw f ef ids p hk h,
   fun hk h => tier4Pass_kw f ef ids p hk h⟩

/-- C9 counterexample: for the query "witch", Tier 3's expanded keywords
contain "story"; the item titled "stories" matches "story" under the
morphological rule but not as a plain substring, so Tiers 3 and 4 reject it
and it surfaces only in Tier 5 — the morphological rule does not hold at
every keyword-filtering tier. -/
theorem keyword_rule_counterexample :
    "story" ∈ (tier3Filters (extractFilters "witch")).keywords ∧
    kwCheckMorph (tier3Filters (extractFilters "witch")).keywords itemStories = true ∧
    kwCheckPlain (tier3Filters (extractFilters "witch")).keywords itemStories = false ∧
    preFilterWith (extractFilters "witch") [itemStories] =
      .ok ⟨[{ itemStories with tierUsed := some 5 }],
           [{ itemStories with tierUsed := some 5 }]⟩ :=
  ⟨by decide, rfl, rfl, rfl⟩

/-- C9 witness. -/
theorem keyword_rule_per_tier_witness : kwCheckMorph ["cat"] itemCatTales = true :=
  (keyword_rule_per_tier fKwCat fKwCat [] itemCatTales).1 rfl (by decide)

/-- C10: a record whose `availableForSale` is absent passes the Tier 1
availability check (only explicit `false` excludes) but fails the truthiness
availability checks of Tiers 2-5; consequently a catalog of such records
with a query failing all soft constraints yields an empty final output, with
the catalog untouched. -/
theorem availability_asymmetry :
    (∀ p : Product, p.availableForSale = none →
      tier1AvailExcluded p = false ∧ availTruthy p = false) ∧
    (∀ (f ef : Filters) (ids : List Nat) (p : Product), p.availableForSale = none →
      tier2Pass f ef ids p = false ∧ tier3Pass f ef ids p = false ∧
      tier4Pass f ef ids p = false ∧ tier5Pass f ids p = false) ∧
    (∀ (f : Filters) (cat : List Product),
      (∀ p ∈ cat, p.availableForSale = none) →
      (∀ p ∈ cat, tier1Pass f (hasFilters f) p = false) →
      preFilterWith f cat = .ok ⟨[], cat⟩) := by
  refine ⟨?_, ?_, fun f cat hav ht1 => pipeline_empty_of_unavailable f cat hav ht1⟩
  · intro p hp
    exact ⟨tier1AvailExcluded_of_none p hp, availTruthy_of_none p hp⟩
  · intro f ef ids p hp
    have h := availTruthy_of_none p hp
    exact ⟨tier2Pass_of_avail_falsy f ef ids p h, tier3Pass_of_avail_falsy f ef ids p h,
      tier4Pass_of_avail_falsy f ef ids p h, tier5Pass_of_avail_falsy f ids p h⟩

/-- C10 witness. -/
theorem availability_asymmetry_witness :
    tier1AvailExcluded itemNoFlag = false ∧
    availTruthy itemNoFlag = false ∧
    tier5Pass (extractFilters "qqqx") [] itemNoFlag = false ∧
    preFilterWith (extractFilters "qqqx") [itemNoFlag] = .ok ⟨[], [itemNoFlag]⟩ := by
  refine ⟨(availability_asymmetry.1 itemNoFlag rfl).1,
    (availability_asymmetry.1 itemNoFlag rfl).2, ?_, ?_⟩
  · exact (availability_asymmetry.2.1 (extractFilters "qqqx") (extractFilters "qqqx")
      [] itemNoFlag rfl).2.2.2
  · exact availability_asymmetry.2.2 (extractFilters "qqqx") [itemNoFlag]
      (by decide) (by decide)
